import Mathlib

/-!
# Text serialisation of the timing graph, constraints and analysis results

A shallow embedding of `tatum_sta/output.cpp`: the three writers
`write_timing_graph`, `write_timing_constraints`, `write_analysis_result`
and the shared helper `write_tags`.

The output stream is the text written so far; every `os << x` appends the
rendering of `x`.  Counted `for` loops over `0 .. size-1` are folds over
`List.range size`, range-`for` loops are folds over the container's iteration
order.  Lookups by id are fallible (`Option`): an id outside its container is
the error branch.
-/

namespace Tatum

/-! ## Handles and values -/

/-- Node handle: `size_t(node_id)` is the number itself. -/
abbrev NodeId := Nat

/-- Edge handle, ordered by its number. -/
abbrev EdgeId := Nat

/-- Clock-domain handle. -/
abbrev DomainId := Nat

/-- Modelled from the spec: the `float` carried by constraints and tag times,
held as its IEEE-754 binary32 bit pattern (sign bit 31, exponent bits 30..23,
fraction bits 22..0). Only the NaN test of the value is interpreted. -/
structure Float32 where
  bits : Nat
deriving DecidableEq, Repr

/-- The `isnan` test: exponent field all ones and a non-zero fraction. -/
def isnan (x : Float32) : Bool :=
  (x.bits / 2 ^ 23) % 256 == 255 && x.bits % 2 ^ 23 != 0

/-- The quiet NaN `0x7FC00000`. -/
def Float32.qnan : Float32 := ⟨0x7FC00000⟩

/-- The value 5.0, `0x40A00000`. -/
def Float32.five : Float32 := ⟨0x40A00000⟩

/-- The value 2.5, `0x40200000`. -/
def Float32.twoAndHalf : Float32 := ⟨0x40200000⟩

/-! ## The output stream -/

/-- The character sink: the text written so far. -/
abbrev OStream := String

/-- Insert a string, `os << "..."`. -/
def OStream.str (os : OStream) (s : String) : OStream := os ++ s

/-- Insert an unsigned number in decimal, `os << size_t(id)`. -/
def OStream.size_t (os : OStream) (n : Nat) : OStream := os ++ Nat.repr n

/-- Insert a floating-point value, `os << value`; the stream's rendering of a
float is the parameter `fmt`. -/
def OStream.float (fmt : Float32 → String) (os : OStream) (x : Float32) : OStream :=
  os ++ fmt x

/-! ## Timing graph -/

/-- Modelled from the spec: a node type is known to the writer only through
the label its stream insertion prints (`SOURCE`, `SINK`, ...), a single word
without a line break. -/
structure NodeType where
  label : String
  single_line : '\n' ∉ label.data

/-- Modelled from the spec: a node carries a type label and the sets of its
incoming and outgoing edge ids. A set is held in its storage (iteration)
order, which is arbitrary, and has no repeated element. -/
structure Node where
  type : NodeType
  in_edges : List EdgeId
  out_edges : List EdgeId
  in_nodup : in_edges.Nodup
  out_nodup : out_edges.Nodup

/-- Modelled from the spec: an edge has a source node and a sink node. -/
structure Edge where
  src_node : NodeId
  sink_node : NodeId
deriving DecidableEq, Repr

/-- Modelled from the spec: the timing graph is an ordered sequence of nodes
and an ordered sequence of edges, indexed by id. -/
structure TimingGraph where
  nodes : List Node
  edges : List Edge

/-- Lookup `tg.node_type(node_id)`. -/
def TimingGraph.node_type (tg : TimingGraph) (node_id : NodeId) : Option NodeType :=
  (tg.nodes[node_id]?).map (fun n => n.type)

/-- Lookup `tg.node_in_edges(node_id)`. -/
def TimingGraph.node_in_edges (tg : TimingGraph) (node_id : NodeId) : Option (List EdgeId) :=
  (tg.nodes[node_id]?).map (fun n => n.in_edges)

/-- Lookup `tg.node_out_edges(node_id)`. -/
def TimingGraph.node_out_edges (tg : TimingGraph) (node_id : NodeId) : Option (List EdgeId) :=
  (tg.nodes[node_id]?).map (fun n => n.out_edges)

/-- Lookup `tg.edge_src_node(edge_id)`. -/
def TimingGraph.edge_src_node (tg : TimingGraph) (edge_id : EdgeId) : Option NodeId :=
  (tg.edges[edge_id]?).map (fun e => e.src_node)

/-- Lookup `tg.edge_sink_node(edge_id)`. -/
def TimingGraph.edge_sink_node (tg : TimingGraph) (edge_id : EdgeId) : Option NodeId :=
  (tg.edges[edge_id]?).map (fun e => e.sink_node)

/-- The call `std::sort(edges.begin(), edges.end())` on edge ids: the ids in
ascending order of `operator<`. -/
def sort_edges (edges : List EdgeId) : List EdgeId :=
  edges.insertionSort (fun a b => a ≤ b)

/-- The loop `for(EdgeId edge_id : edges) os << size_t(edge_id) << " ";`. -/
def write_edge_ids (os : OStream) (edges : List EdgeId) : OStream :=
  edges.foldl (fun os edge_id => (os.size_t edge_id).str " ") os

/-- Body of the node loop of `write_timing_graph` (lines 30-53). -/
def write_node (tg : TimingGraph) (os : OStream) (node_idx : Nat) : Option OStream := do
  let node_id : NodeId := node_idx
  let os := ((os.str " node: ").size_t node_id).str "\n"
  let type ← tg.node_type node_id
  let os := (os.str "  type: ").str type.label
  let os := os.str "\n"
  let os := os.str "  in_edges: "
  let in_edges ← tg.node_in_edges node_id
  let edges := sort_edges in_edges
  let os := write_edge_ids os edges
  let os := os.str "\n"
  let os := os.str "  out_edges: "
  let out_edges ← tg.node_out_edges node_id
  let edges := sort_edges out_edges
  let os := write_edge_ids os edges
  let os := os.str "\n"
  pure os

/-- Body of the edge loop of `write_timing_graph` (lines 59-63). -/
def write_edge (tg : TimingGraph) (os : OStream) (edge_idx : Nat) : Option OStream := do
  let edge_id : EdgeId := edge_idx
  let os := ((os.str " edge: ").size_t edge_id).str "\n"
  let src ← tg.edge_src_node edge_id
  let os := ((os.str "  src_node: ").size_t src).str "\n"
  let sink ← tg.edge_sink_node edge_id
  let os := ((os.str "  sink_node: ").size_t sink).str "\n"
  pure os

/-- The writer `write_timing_graph(os, tg)`. -/
def write_timing_graph (os : OStream) (tg : TimingGraph) : Option OStream := do
  let os := (os.str "timing_graph:").str "\n"
  let os ← (List.range tg.nodes.length).foldlM (write_node tg) os
  let os ← (List.range tg.edges.length).foldlM (write_edge tg) os
  pure (os.str "\n")

/-! ## Timing constraints -/

/-- Modelled from the spec: a clock domain has an id, a name and an optional
source node (`clock_domain_source_node` yields a handle that tests false when
the domain has none). -/
structure ClockDomain where
  id : DomainId
  name : String
  source_node : Option NodeId
deriving DecidableEq, Repr

/-- Modelled from the spec: the value of an input or output constraint entry,
a domain and a constraint value. -/
structure IoConstraint where
  domain : DomainId
  constraint : Float32
deriving DecidableEq, Repr

/-- Modelled from the spec: the key of a setup or hold constraint entry. -/
structure DomainPair where
  src_domain_id : DomainId
  sink_domain_id : DomainId
deriving DecidableEq, Repr

/-- Modelled from the spec: the constraints object, each collection in its
iteration order. -/
structure TimingConstraints where
  clock_domains : List ClockDomain
  constant_generators : List NodeId
  input_constraints : List (NodeId × IoConstraint)
  output_constraints : List (NodeId × IoConstraint)
  setup_constraints : List (DomainPair × Float32)
  hold_constraints : List (DomainPair × Float32)

/-- Body of the first loop (line 72): one `CLOCK` line. -/
def write_clock (os : OStream) (d : ClockDomain) : OStream :=
  ((((os.str " type: CLOCK domain: ").size_t d.id).str " name: \"").str d.name).str "\"\n"

/-- Body of the second loop (lines 76-79): a `CLOCK_SOURCE` line when the
source node handle is valid. -/
def write_clock_source (os : OStream) (d : ClockDomain) : OStream :=
  match d.source_node with
  | some source_node_id =>
    ((((os.str " type: CLOCK_SOURCE node: ").size_t source_node_id).str " domain: ").size_t d.id).str "\n"
  | none => os

/-- Body of the third loop (line 83): one `CONSTANT_GENERATOR` line. -/
def write_constant_generator (os : OStream) (node_id : NodeId) : OStream :=
  ((os.str " type: CONSTANT_GENERATOR node: ").size_t node_id).str "\n"

/-- Body of the input-constraint loop (lines 87-92). -/
def write_input_constraint (fmt : Float32 → String) (os : OStream)
    (kv : NodeId × IoConstraint) : OStream :=
  let node_id := kv.1
  let domain_id := kv.2.domain
  let constraint := kv.2.constraint
  if !isnan constraint then
    ((((((os.str " type: INPUT_CONSTRAINT node: ").size_t node_id).str " domain: ").size_t
      domain_id).str " constraint: ").float fmt constraint).str "\n"
  else os

/-- Body of the output-constraint loop (lines 96-101). -/
def write_output_constraint (fmt : Float32 → String) (os : OStream)
    (kv : NodeId × IoConstraint) : OStream :=
  let node_id := kv.1
  let domain_id := kv.2.domain
  let constraint := kv.2.constraint
  if !isnan constraint then
    ((((((os.str " type: OUTPUT_CONSTRAINT node: ").size_t node_id).str " domain: ").size_t
      domain_id).str " constraint: ").float fmt constraint).str "\n"
  else os

/-- Body of the setup-constraint loop (lines 105-113). -/
def write_setup_constraint (fmt : Float32 → String) (os : OStream)
    (kv : DomainPair × Float32) : OStream :=
  let key := kv.1
  let constraint := kv.2
  if !isnan constraint then
    let os := os.str " type: SETUP_CONSTRAINT"
    let os := (os.str " src_domain: ").size_t key.src_domain_id
    let os := (os.str " sink_domain: ").size_t key.sink_domain_id
    let os := (os.str " constraint: ").float fmt constraint
    os.str "\n"
  else os

/-- Body of the hold-constraint loop (lines 117-125). -/
def write_hold_constraint (fmt : Float32 → String) (os : OStream)
    (kv : DomainPair × Float32) : OStream :=
  let key := kv.1
  let constraint := kv.2
  if !isnan constraint then
    let os := os.str " type: HOLD_CONSTRAINT"
    let os := (os.str " src_domain: ").size_t key.src_domain_id
    let os := (os.str " sink_domain: ").size_t key.sink_domain_id
    let os := (os.str " constraint: ").float fmt constraint
    os.str "\n"
  else os

/-- The writer `write_timing_constraints(os, tc)`. -/
def write_timing_constraints (fmt : Float32 → String) (os : OStream)
    (tc : TimingConstraints) : OStream :=
  let os := os.str "timing_constraints:\n"
  let os := tc.clock_domains.foldl write_clock os
  let os := tc.clock_domains.foldl write_clock_source os
  let os := tc.constant_generators.foldl write_constant_generator os
  let os := tc.input_constraints.foldl (write_input_constraint fmt) os
  let os := tc.output_constraints.foldl (write_output_constraint fmt) os
  let os := tc.setup_constraints.foldl (write_setup_constraint fmt) os
  let os := tc.hold_constraints.foldl (write_hold_constraint fmt) os
  os.str "\n"

/-! ## Tags and analysis results -/

/-- Modelled from the spec: a tag belongs to one clock domain and carries an
arrival time and a required time (`arr_time().value()`, `req_time().value()`). -/
structure TimingTag where
  clock_domain : DomainId
  arr_time : Float32
  req_time : Float32
deriving DecidableEq, Repr

/-- A node's tag collection, in iteration order. -/
abbrev TimingTags := List TimingTag

/-- Body of the loop of `write_tags` (lines 160-177). -/
def write_tag (fmt : Float32 → String) (type : String) (node_id : NodeId)
    (os : OStream) (tag : TimingTag) : OStream :=
  let arr := tag.arr_time
  let req := tag.req_time
  if !isnan arr || !isnan req then
    let os := (os.str " type: ").str type
    let os := (os.str " node: ").size_t node_id
    let os := (os.str " domain: ").size_t tag.clock_domain
    let os := if !isnan arr then (os.str " arr: ").float fmt arr else os
    let os := if !isnan arr then (os.str " req: ").float fmt tag.req_time else os
    os.str "\n"
  else os

/-- The helper `write_tags(os, type, tags, node_id)`. -/
def write_tags (fmt : Float32 → String) (os : OStream) (type : String)
    (tags : TimingTags) (node_id : NodeId) : OStream :=
  tags.foldl (write_tag fmt type node_id) os

/-- Modelled from the spec: the setup-capable view of an analyzer. -/
structure SetupTimingAnalyzer where
  get_setup_data_tags : NodeId → TimingTags
  get_setup_clock_tags : NodeId → TimingTags

/-- Modelled from the spec: the hold-capable view of an analyzer. -/
structure HoldTimingAnalyzer where
  get_hold_data_tags : NodeId → TimingTags
  get_hold_clock_tags : NodeId → TimingTags

/-- Modelled from the spec: an analyzer offers a setup-capable view and a
hold-capable view, each independently present or absent; the two fields are
the results of the two `dynamic_pointer_cast`s. -/
structure TimingAnalyzer where
  setup_analyzer : Option SetupTimingAnalyzer
  hold_analyzer : Option HoldTimingAnalyzer

/-- The setup branch of `write_analysis_result` (lines 134-143). -/
def write_setup_result (fmt : Float32 → String) (os : OStream) (tg : TimingGraph)
    (setup_analyzer : Option SetupTimingAnalyzer) : OStream :=
  match setup_analyzer with
  | some sa =>
    let os := (List.range tg.nodes.length).foldl
      (fun os node_idx => write_tags fmt os "SETUP_DATA" (sa.get_setup_data_tags node_idx) node_idx) os
    (List.range tg.nodes.length).foldl
      (fun os node_idx => write_tags fmt os "SETUP_CLOCK" (sa.get_setup_clock_tags node_idx) node_idx) os
  | none => os

/-- The hold branch of `write_analysis_result` (lines 145-154). -/
def write_hold_result (fmt : Float32 → String) (os : OStream) (tg : TimingGraph)
    (hold_analyzer : Option HoldTimingAnalyzer) : OStream :=
  match hold_analyzer with
  | some ha =>
    let os := (List.range tg.nodes.length).foldl
      (fun os node_idx => write_tags fmt os "HOLD_DATA" (ha.get_hold_data_tags node_idx) node_idx) os
    (List.range tg.nodes.length).foldl
      (fun os node_idx => write_tags fmt os "HOLD_CLOCK" (ha.get_hold_clock_tags node_idx) node_idx) os
  | none => os

/-- The writer `write_analysis_result(os, tg, analyzer)`. -/
def write_analysis_result (fmt : Float32 → String) (os : OStream) (tg : TimingGraph)
    (analyzer : TimingAnalyzer) : OStream :=
  let os := os.str "analysis_result:\n"
  let os := write_setup_result fmt os tg analyzer.setup_analyzer
  let os := write_hold_result fmt os tg analyzer.hold_analyzer
  os.str "\n"

/-! ## The text the writers are specified to produce -/

/-- An id list as the spec prints it: every id followed by one blank. -/
def spec_id_list (ids : List Nat) : String :=
  String.join (ids.map (fun i => Nat.repr i ++ " "))

/-- One node block of the graph section: id, type label, in-edge ids and
out-edge ids. -/
structure NodeBlock where
  id : NodeId
  type : NodeType
  in_edges : List EdgeId
  out_edges : List EdgeId

/-- The four lines of a node block. -/
def NodeBlock.text (b : NodeBlock) : String :=
  " node: " ++ Nat.repr b.id ++ "\n" ++
  "  type: " ++ b.type.label ++ "\n" ++
  "  in_edges: " ++ spec_id_list b.in_edges ++ "\n" ++
  "  out_edges: " ++ spec_id_list b.out_edges ++ "\n"

/-- One edge block of the graph section: id, source node and sink node. -/
structure EdgeBlock where
  id : EdgeId
  src_node : NodeId
  sink_node : NodeId
deriving DecidableEq, Repr

/-- The three lines of an edge block. -/
def EdgeBlock.text (b : EdgeBlock) : String :=
  " edge: " ++ Nat.repr b.id ++ "\n" ++
  "  src_node: " ++ Nat.repr b.src_node ++ "\n" ++
  "  sink_node: " ++ Nat.repr b.sink_node ++ "\n"

/-- The node block the spec asks for node `p.2` stored at position `p.1`. -/
def spec_node_block (p : Nat × Node) : NodeBlock :=
  ⟨p.1, p.2.type, sort_edges p.2.in_edges, sort_edges p.2.out_edges⟩

/-- The edge block the spec asks for edge `p.2` stored at position `p.1`. -/
def spec_edge_block (p : Nat × Edge) : EdgeBlock :=
  ⟨p.1, p.2.src_node, p.2.sink_node⟩

/-- The node blocks of a graph in the spec's order: one per node, by
position. -/
def spec_node_blocks (tg : TimingGraph) : List NodeBlock :=
  tg.nodes.enum.map spec_node_block

/-- The edge blocks of a graph in the spec's order: one per edge, by
position. -/
def spec_edge_blocks (tg : TimingGraph) : List EdgeBlock :=
  tg.edges.enum.map spec_edge_block

/-- The graph section as the spec lays it out: header, node blocks, edge
blocks, closing blank line. -/
def spec_timing_graph (tg : TimingGraph) : String :=
  "timing_graph:\n" ++ String.join ((spec_node_blocks tg).map NodeBlock.text) ++
    String.join ((spec_edge_blocks tg).map EdgeBlock.text) ++ "\n"

/-- Two nodes that differ at most in the storage order of their adjacency. -/
def Node.same_up_to_order (a b : Node) : Prop :=
  a.type = b.type ∧ a.in_edges.Perm b.in_edges ∧ a.out_edges.Perm b.out_edges

/-- The record types of the constraints section, in the order of the groups. -/
inductive RecordType
  | CLOCK
  | CLOCK_SOURCE
  | CONSTANT_GENERATOR
  | INPUT_CONSTRAINT
  | OUTPUT_CONSTRAINT
  | SETUP_CONSTRAINT
  | HOLD_CONSTRAINT
deriving DecidableEq, Repr

/-- One record line of the constraints section. -/
inductive ConstraintRecord
  | clock (domain : DomainId) (name : String)
  | clock_source (node : NodeId) (domain : DomainId)
  | constant_generator (node : NodeId)
  | input_constraint (node : NodeId) (domain : DomainId) (constraint : Float32)
  | output_constraint (node : NodeId) (domain : DomainId) (constraint : Float32)
  | setup_constraint (src_domain : DomainId) (sink_domain : DomainId) (constraint : Float32)
  | hold_constraint (src_domain : DomainId) (sink_domain : DomainId) (constraint : Float32)
deriving DecidableEq, Repr

/-- The type of a record. -/
def ConstraintRecord.type : ConstraintRecord → RecordType
  | .clock _ _ => .CLOCK
  | .clock_source _ _ => .CLOCK_SOURCE
  | .constant_generator _ => .CONSTANT_GENERATOR
  | .input_constraint _ _ _ => .INPUT_CONSTRAINT
  | .output_constraint _ _ _ => .OUTPUT_CONSTRAINT
  | .setup_constraint _ _ _ => .SETUP_CONSTRAINT
  | .hold_constraint _ _ _ => .HOLD_CONSTRAINT

/-- The line of a record, in the format of the spec's section 6. -/
def ConstraintRecord.text (fmt : Float32 → String) : ConstraintRecord → String
  | .clock d name => " type: CLOCK domain: " ++ Nat.repr d ++ " name: \"" ++ name ++ "\"\n"
  | .clock_source n d =>
    " type: CLOCK_SOURCE node: " ++ Nat.repr n ++ " domain: " ++ Nat.repr d ++ "\n"
  | .constant_generator n => " type: CONSTANT_GENERATOR node: " ++ Nat.repr n ++ "\n"
  | .input_constraint n d c =>
    " type: INPUT_CONSTRAINT node: " ++ Nat.repr n ++ " domain: " ++ Nat.repr d ++
      " constraint: " ++ fmt c ++ "\n"
  | .output_constraint n d c =>
    " type: OUTPUT_CONSTRAINT node: " ++ Nat.repr n ++ " domain: " ++ Nat.repr d ++
      " constraint: " ++ fmt c ++ "\n"
  | .setup_constraint a b c =>
    " type: SETUP_CONSTRAINT src_domain: " ++ Nat.repr a ++ " sink_domain: " ++ Nat.repr b ++
      " constraint: " ++ fmt c ++ "\n"
  | .hold_constraint a b c =>
    " type: HOLD_CONSTRAINT src_domain: " ++ Nat.repr a ++ " sink_domain: " ++ Nat.repr b ++
      " constraint: " ++ fmt c ++ "\n"

/-- The records one clock domain contributes to the `CLOCK_SOURCE` group: one
when its source node is present, none otherwise. -/
def spec_clock_source_records (d : ClockDomain) : List ConstraintRecord :=
  match d.source_node with
  | some n => [.clock_source n d.id]
  | none => []

/-- The records one input-constraint entry contributes: none for a NaN value,
one otherwise. -/
def spec_input_records (kv : NodeId × IoConstraint) : List ConstraintRecord :=
  if isnan kv.2.constraint then [] else [.input_constraint kv.1 kv.2.domain kv.2.constraint]

/-- The records one output-constraint entry contributes. -/
def spec_output_records (kv : NodeId × IoConstraint) : List ConstraintRecord :=
  if isnan kv.2.constraint then [] else [.output_constraint kv.1 kv.2.domain kv.2.constraint]

/-- The records one setup-constraint entry contributes. -/
def spec_setup_records (kv : DomainPair × Float32) : List ConstraintRecord :=
  if isnan kv.2 then [] else [.setup_constraint kv.1.src_domain_id kv.1.sink_domain_id kv.2]

/-- The records one hold-constraint entry contributes. -/
def spec_hold_records (kv : DomainPair × Float32) : List ConstraintRecord :=
  if isnan kv.2 then [] else [.hold_constraint kv.1.src_domain_id kv.1.sink_domain_id kv.2]

/-- The records of the constraints section, group after group. -/
def spec_constraint_records (tc : TimingConstraints) : List ConstraintRecord :=
  tc.clock_domains.map (fun d => .clock d.id d.name) ++
  tc.clock_domains.flatMap spec_clock_source_records ++
  tc.constant_generators.map .constant_generator ++
  tc.input_constraints.flatMap spec_input_records ++
  tc.output_constraints.flatMap spec_output_records ++
  tc.setup_constraints.flatMap spec_setup_records ++
  tc.hold_constraints.flatMap spec_hold_records

/-- Number of records of a given type among the specified records. -/
def count_type (t : RecordType) (rs : List ConstraintRecord) : Nat :=
  rs.countP (fun r => decide (r.type = t))

/-- Number of line breaks in a text. -/
def line_breaks (s : String) : Nat := s.data.count '\n'

/-- A text is one line: it has a single line break, its last character. -/
def is_line (s : String) : Bool :=
  s.data.getLast? == some '\n' && line_breaks s == 1

/-- Example rendering of floats, for concrete instances: `nan`, `5`, `2.5`. -/
def sample_fmt (x : Float32) : String :=
  if isnan x then "nan" else if x = Float32.five then "5" else
  if x = Float32.twoAndHalf then "2.5" else "0"

/-- One line of the result section: type label, node id, clock-domain id
and the optional arrival and required fields. -/
structure TagLine where
  type : String
  node : NodeId
  domain : DomainId
  arr : Option Float32
  req : Option Float32
deriving DecidableEq, Repr

/-- The text of an optional time field with its keyword. -/
def time_field (fmt : Float32 → String) (keyword : String) : Option Float32 → String
  | some x => keyword ++ fmt x
  | none => ""

/-- The line of the result section, in the format of the spec's section 6. -/
def TagLine.text (fmt : Float32 → String) (l : TagLine) : String :=
  " type: " ++ l.type ++ " node: " ++ Nat.repr l.node ++ " domain: " ++ Nat.repr l.domain ++
    time_field fmt " arr: " l.arr ++ time_field fmt " req: " l.req ++ "\n"

/-- The test of the spec's section 4.4: arrival or required is not NaN. -/
def tag_has_time (tag : TimingTag) : Bool :=
  !isnan tag.arr_time || !isnan tag.req_time

/-- The line of a tag per the spec's section 4.4: the arrival value is
included only if arrival is not NaN, and so is the required value. -/
def spec_tag_line (type : String) (node_id : NodeId) (tag : TimingTag) : TagLine :=
  { type := type, node := node_id, domain := tag.clock_domain,
    arr := if isnan tag.arr_time then none else some tag.arr_time,
    req := if isnan tag.arr_time then none else some tag.req_time }

/-- The lines one tag contributes: one when it has a time, none otherwise. -/
def spec_tag_lines (type : String) (node_id : NodeId) (tag : TimingTag) : List TagLine :=
  if tag_has_time tag then [spec_tag_line type node_id tag] else []

/-- The lines of one pass over the nodes `0 .. n-1` in ascending order, each
node offering all its tags. -/
def spec_pass_lines (type : String) (get_tags : NodeId → TimingTags) (n : Nat) : List TagLine :=
  (List.range n).flatMap (fun i => (get_tags i).flatMap (spec_tag_lines type i))

/-- The lines of the setup category: the `SETUP_DATA` pass, then the
`SETUP_CLOCK` pass. -/
def spec_setup_lines (n : Nat) (sa : SetupTimingAnalyzer) : List TagLine :=
  spec_pass_lines "SETUP_DATA" sa.get_setup_data_tags n ++
    spec_pass_lines "SETUP_CLOCK" sa.get_setup_clock_tags n

/-- The lines of the hold category: the `HOLD_DATA` pass, then the
`HOLD_CLOCK` pass. -/
def spec_hold_lines (n : Nat) (ha : HoldTimingAnalyzer) : List TagLine :=
  spec_pass_lines "HOLD_DATA" ha.get_hold_data_tags n ++
    spec_pass_lines "HOLD_CLOCK" ha.get_hold_clock_tags n

/-- Position of a record type in the fixed sequence of groups. -/
def RecordType.rank : RecordType → Nat
  | .CLOCK => 0
  | .CLOCK_SOURCE => 1
  | .CONSTANT_GENERATOR => 2
  | .INPUT_CONSTRAINT => 3
  | .OUTPUT_CONSTRAINT => 4
  | .SETUP_CONSTRAINT => 5
  | .HOLD_CONSTRAINT => 6

/-- The records of one type, in the order in which they are emitted. -/
def records_of_type (t : RecordType) (rs : List ConstraintRecord) : List ConstraintRecord :=
  rs.filter (fun r => decide (r.type = t))

/-- A list of records is grouped when no record of an earlier type comes
after a record of a later type. -/
def grouped (rs : List ConstraintRecord) : Prop :=
  rs.Pairwise (fun a b => a.type.rank ≤ b.type.rank)

/-- The label a record type is printed with. -/
def RecordType.label : RecordType → String
  | .CLOCK => "CLOCK"
  | .CLOCK_SOURCE => "CLOCK_SOURCE"
  | .CONSTANT_GENERATOR => "CONSTANT_GENERATOR"
  | .INPUT_CONSTRAINT => "INPUT_CONSTRAINT"
  | .OUTPUT_CONSTRAINT => "OUTPUT_CONSTRAINT"
  | .SETUP_CONSTRAINT => "SETUP_CONSTRAINT"
  | .HOLD_CONSTRAINT => "HOLD_CONSTRAINT"

/-- Structural validity of a graph, the spec's id-range invariant: every
edge id held in an adjacency is below the number of edges and every node id
held in an edge is below the number of nodes. -/
def TimingGraph.valid (tg : TimingGraph) : Bool :=
  tg.nodes.all (fun n =>
    n.in_edges.all (fun e => decide (e < tg.edges.length)) &&
    n.out_edges.all (fun e => decide (e < tg.edges.length))) &&
  tg.edges.all (fun e =>
    decide (e.src_node < tg.nodes.length) && decide (e.sink_node < tg.nodes.length))

/-- A text ends with a line break. -/
def ends_line (s : String) : Bool := s.data.getLast? == some '\n'

/-- The number a list of decimal digit characters stands for. -/
def digits_value (l : List Char) : Nat :=
  l.foldl (fun acc c => 10 * acc + (c.toNat - 48)) 0

/-- The lines of a node block, without their line breaks. -/
def node_lines (b : NodeBlock) : List String :=
  [" node: " ++ Nat.repr b.id, "  type: " ++ b.type.label,
   "  in_edges: " ++ spec_id_list b.in_edges, "  out_edges: " ++ spec_id_list b.out_edges]

/-- The lines of an edge block, without their line breaks. -/
def edge_lines (b : EdgeBlock) : List String :=
  [" edge: " ++ Nat.repr b.id, "  src_node: " ++ Nat.repr b.src_node,
   "  sink_node: " ++ Nat.repr b.sink_node]

/-- A text made of lines: every line followed by a line break. -/
def unlines (ls : List String) : String :=
  String.join (ls.map (fun l => l ++ "\n"))

/-- The content lines of the graph section, without their line breaks. -/
def graph_lines (tg : TimingGraph) : List String :=
  "timing_graph:" ::
    ((spec_node_blocks tg).flatMap node_lines ++ (spec_edge_blocks tg).flatMap edge_lines)

/-! ## Concrete instances -/

/-- Storage-order example: one node whose in-edges are stored as `1, 0`. -/
def g_stored_desc : TimingGraph :=
  { nodes := [⟨⟨"SINK", by decide⟩, [1, 0], [], by decide, by decide⟩], edges := [⟨0, 0⟩, ⟨0, 0⟩] }

/-- Storage-order example: the same node with in-edges stored as `0, 1`. -/
def g_stored_asc : TimingGraph :=
  { nodes := [⟨⟨"SINK", by decide⟩, [0, 1], [], by decide, by decide⟩], edges := [⟨0, 0⟩, ⟨0, 0⟩] }

/-- The graph of the spec's scenario: node 0 of type `SOURCE`, node 1 of type
`SINK`, one edge 0 from node 0 to node 1. -/
def scenario_graph : TimingGraph :=
  { nodes := [⟨⟨"SOURCE", by decide⟩, [], [0], by decide, by decide⟩,
              ⟨⟨"SINK", by decide⟩, [0], [], by decide, by decide⟩],
    edges := [⟨0, 1⟩] }

/-- The lines the spec's scenario gives for `scenario_graph`. -/
def scenario_graph_lines : List String :=
  ["timing_graph:", " node: 0", "  type: SOURCE", "  in_edges: ", "  out_edges: 0",
   " node: 1", "  type: SINK", "  in_edges: 0", "  out_edges: ",
   " edge: 0", "  src_node: 0", "  sink_node: 1"]

/-- The text of the spec's scenario: every line ended by a line break. -/
def scenario_graph_text : String :=
  String.join (scenario_graph_lines.map (fun l => l ++ "\n"))

/-- The constraints of the spec's scenario: clock domain 0 named `clk`
without source node and one input constraint on node 3 in domain 0 with
value 2.5. -/
def scenario_constraints : TimingConstraints :=
  { clock_domains := [⟨0, "clk", none⟩],
    constant_generators := [],
    input_constraints := [(3, ⟨0, Float32.twoAndHalf⟩)],
    output_constraints := [],
    setup_constraints := [],
    hold_constraints := [] }

/-- A graph with as many nodes as the scenario graph and nothing else in
common with it: two `IPIN` nodes and no edge. -/
def g_two_isolated : TimingGraph :=
  { nodes := [⟨⟨"IPIN", by decide⟩, [], [], by decide, by decide⟩,
              ⟨⟨"IPIN", by decide⟩, [], [], by decide, by decide⟩],
    edges := [] }

/-- Example analyzer with the setup view only: every node has one data tag
with arrival 5.0 in the domain of its own number and no clock tag. -/
def setup_only_sample : TimingAnalyzer :=
  { setup_analyzer := some ⟨fun i => [⟨i, Float32.five, Float32.qnan⟩], fun _ => []⟩,
    hold_analyzer := none }

/-- Example constraints: one clock domain without source node, input
constraints with a value and with NaN, one NaN output constraint, one setup
constraint with a value and one NaN hold constraint. -/
def tc_nan_sample : TimingConstraints :=
  { clock_domains := [⟨0, "clk", none⟩],
    constant_generators := [],
    input_constraints := [(3, ⟨0, Float32.twoAndHalf⟩), (4, ⟨0, Float32.qnan⟩)],
    output_constraints := [(5, ⟨0, Float32.qnan⟩)],
    setup_constraints := [(⟨0, 0⟩, Float32.five)],
    hold_constraints := [(⟨0, 0⟩, Float32.qnan)] }

/-! ## Text lemmas -/

theorem join_eq_foldl_aux (l : List String) (acc : String) :
    l.foldl (fun r s => r ++ s) acc = acc ++ String.join l := by
  induction l generalizing acc with
  | nil => simp [String.join]
  | cons a l ih =>
    simp only [List.foldl_cons, String.join]
    rw [ih, ih ("" ++ a), String.empty_append, String.append_assoc]

theorem join_nil : String.join [] = "" := rfl

theorem join_cons (a : String) (l : List String) :
    String.join (a :: l) = a ++ String.join l := by
  show (a :: l).foldl (fun r s => r ++ s) "" = _
  rw [List.foldl_cons, join_eq_foldl_aux, String.empty_append]

theorem join_append (l₁ l₂ : List String) :
    String.join (l₁ ++ l₂) = String.join l₁ ++ String.join l₂ := by
  induction l₁ with
  | nil => simp [join_nil]
  | cons a l ih => rw [List.cons_append, join_cons, join_cons, ih, String.append_assoc]

/-- A loop whose body appends `txt x`, or nothing, according to a test `p`,
appends the texts of the elements passing the test, in order. -/
theorem foldl_emit {α : Type} (f : OStream → α → OStream) (p : α → Bool) (txt : α → String)
    (hp : ∀ os x, p x = true → f os x = os ++ txt x)
    (hn : ∀ os x, p x = false → f os x = os) (l : List α) (os : OStream) :
    l.foldl f os = os ++ String.join ((l.filter p).map txt) := by
  induction l generalizing os with
  | nil => simp [join_nil]
  | cons a l ih =>
    rw [List.foldl_cons, ih]
    cases h : p a
    · rw [hn os a h, List.filter_cons_of_neg (by simp [h])]
    · rw [hp os a h, List.filter_cons_of_pos h, List.map_cons, join_cons, String.append_assoc]

/-- A loop whose body always appends `txt x` appends all the texts in order. -/
theorem foldl_emit_all {α : Type} (f : OStream → α → OStream) (txt : α → String)
    (hf : ∀ os x, f os x = os ++ txt x) (l : List α) (os : OStream) :
    l.foldl f os = os ++ String.join (l.map txt) := by
  have h := foldl_emit f (fun _ => true) txt (fun os x _ => hf os x) (fun _ _ h => by simp at h) l os
  simpa using h

/-- A fallible counted loop over the positions of `l`, starting at `s`, whose
body appends `txt (i, a)` at every position `i` holding `a`. -/
theorem foldlM_range'_emit {α : Type} (f : OStream → Nat → Option OStream)
    (txt : Nat × α → String) (l : List α) (s : Nat)
    (hf : ∀ os p, p ∈ l.enumFrom s → f os p.1 = some (os ++ txt p)) (os : OStream) :
    (List.range' s l.length).foldlM f os = some (os ++ String.join ((l.enumFrom s).map txt)) := by
  induction l generalizing s os with
  | nil => simp [join_nil]
  | cons a l ih =>
    have h0 : f os s = some (os ++ txt (s, a)) := hf os (s, a) (by simp)
    simp only [List.length_cons, List.range'_succ, List.foldlM_cons, h0, Option.bind_eq_bind,
      Option.some_bind, List.enumFrom_cons, List.map_cons, join_cons]
    rw [ih (s + 1) (fun os p hp => hf os p (by simp [hp])), String.append_assoc]

/-- The counted loop `for(i = 0; i < l.size(); ++i)` with an appending body. -/
theorem foldlM_range_emit {α : Type} (f : OStream → Nat → Option OStream)
    (txt : Nat × α → String) (l : List α)
    (hf : ∀ os i a, l[i]? = some a → f os i = some (os ++ txt (i, a))) (os : OStream) :
    (List.range l.length).foldlM f os = some (os ++ String.join (l.enum.map txt)) := by
  rw [List.range_eq_range']
  exact foldlM_range'_emit f txt l 0
    (fun os p hp => hf os p.1 p.2 (List.mem_enum_iff_getElem?.mp hp)) os

/-! ## The graph writer computes the specified text -/

theorem write_edge_ids_eq (os : OStream) (edges : List EdgeId) :
    write_edge_ids os edges = os ++ spec_id_list edges := by
  unfold write_edge_ids spec_id_list
  exact foldl_emit_all _ (fun i => Nat.repr i ++ " ")
    (fun os x => by simp [OStream.size_t, OStream.str, String.append_assoc]) edges os

theorem write_node_eq (tg : TimingGraph) (os : OStream) (i : Nat) (n : Node)
    (h : tg.nodes[i]? = some n) :
    write_node tg os i = some (os ++ (spec_node_block (i, n)).text) := by
  simp [write_node, TimingGraph.node_type, TimingGraph.node_in_edges,
    TimingGraph.node_out_edges, h, write_edge_ids_eq, OStream.size_t, OStream.str,
    spec_node_block, NodeBlock.text, String.append_assoc]

theorem write_edge_eq (tg : TimingGraph) (os : OStream) (i : Nat) (e : Edge)
    (h : tg.edges[i]? = some e) :
    write_edge tg os i = some (os ++ (spec_edge_block (i, e)).text) := by
  simp [write_edge, TimingGraph.edge_src_node, TimingGraph.edge_sink_node, h,
    OStream.size_t, OStream.str, spec_edge_block, EdgeBlock.text, String.append_assoc]

/-- The graph writer always returns, and what it appends is the specified
graph section. -/
theorem write_timing_graph_eq (os : OStream) (tg : TimingGraph) :
    write_timing_graph os tg = some (os ++ spec_timing_graph tg) := by
  have hn := foldlM_range_emit (write_node tg) (fun p => (spec_node_block p).text) tg.nodes
    (fun os i a h => write_node_eq tg os i a h)
  have he := foldlM_range_emit (write_edge tg) (fun p => (spec_edge_block p).text) tg.edges
    (fun os i a h => write_edge_eq tg os i a h)
  simp [write_timing_graph, hn, he, spec_timing_graph, spec_node_blocks, spec_edge_blocks,
    OStream.str, String.append_assoc, List.map_map, Function.comp_def]

/-! ## Sorting of adjacency lists -/

theorem sort_edges_perm (l : List EdgeId) : (sort_edges l).Perm l :=
  List.perm_insertionSort _ l

theorem sort_edges_sorted (l : List EdgeId) : (sort_edges l).Sorted (fun a b => a ≤ b) :=
  List.sorted_insertionSort _ l

theorem sort_edges_strict (l : List EdgeId) (h : l.Nodup) :
    (sort_edges l).Sorted (fun a b => a < b) :=
  (sort_edges_sorted l).lt_of_le ((sort_edges_perm l).nodup_iff.mpr h)

theorem sort_edges_congr {l₁ l₂ : List EdgeId} (h : l₁.Perm l₂) :
    sort_edges l₁ = sort_edges l₂ :=
  List.eq_of_perm_of_sorted (((sort_edges_perm l₁).trans h).trans (sort_edges_perm l₂).symm)
    (sort_edges_sorted l₁) (sort_edges_sorted l₂)

theorem spec_node_blocks_ids (tg : TimingGraph) :
    (spec_node_blocks tg).map NodeBlock.id = List.range tg.nodes.length := by
  rw [← List.enum_map_fst]
  simp [spec_node_blocks, spec_node_block, List.map_map, Function.comp_def]

theorem spec_edge_blocks_ids (tg : TimingGraph) :
    (spec_edge_blocks tg).map EdgeBlock.id = List.range tg.edges.length := by
  rw [← List.enum_map_fst]
  simp [spec_edge_blocks, spec_edge_block, List.map_map, Function.comp_def]

theorem enum_map_snd_comp {α β : Type} (g : α → β) (l : List α) :
    l.enum.map (fun p => g p.2) = l.map g := by
  conv_rhs => rw [← List.enum_map_snd l]
  rw [List.map_map]
  rfl

/-! ## Graph writer: claims -/

/-- C1: after the `timing_graph:` header the graph writer emits one node block
per node, with ids `0, 1, ..., n-1` in that order, each made of the node's
id, type label, in-edge ids and out-edge ids, then one edge block per edge,
with ids `0, 1, ..., m-1` in that order, each made of the edge's id, source
node and sink node; all node blocks come before all edge blocks. -/
theorem write_timing_graph_blocks (os : OStream) (tg : TimingGraph) :
    write_timing_graph os tg =
        some (os ++ "timing_graph:\n" ++ String.join ((spec_node_blocks tg).map NodeBlock.text)
          ++ String.join ((spec_edge_blocks tg).map EdgeBlock.text) ++ "\n") ∧
      (spec_node_blocks tg).length = tg.nodes.length ∧
      (spec_node_blocks tg).map NodeBlock.id = List.range tg.nodes.length ∧
      (spec_node_blocks tg).map NodeBlock.type = tg.nodes.map Node.type ∧
      (spec_node_blocks tg).map NodeBlock.in_edges =
        tg.nodes.map (fun n => sort_edges n.in_edges) ∧
      (spec_node_blocks tg).map NodeBlock.out_edges =
        tg.nodes.map (fun n => sort_edges n.out_edges) ∧
      (spec_edge_blocks tg).length = tg.edges.length ∧
      (spec_edge_blocks tg).map EdgeBlock.id = List.range tg.edges.length ∧
      (spec_edge_blocks tg).map (fun b => Edge.mk b.src_node b.sink_node) = tg.edges := by
  refine ⟨?_, ?_, spec_node_blocks_ids tg, ?_, ?_, ?_, ?_, spec_edge_blocks_ids tg, ?_⟩
  · rw [write_timing_graph_eq]
    simp [spec_timing_graph, String.append_assoc]
  · simp [spec_node_blocks]
  · simpa [spec_node_blocks, spec_node_block, List.map_map, Function.comp_def] using
      enum_map_snd_comp Node.type tg.nodes
  · simpa [spec_node_blocks, spec_node_block, List.map_map, Function.comp_def] using
      enum_map_snd_comp (fun n : Node => sort_edges n.in_edges) tg.nodes
  · simpa [spec_node_blocks, spec_node_block, List.map_map, Function.comp_def] using
      enum_map_snd_comp (fun n : Node => sort_edges n.out_edges) tg.nodes
  · simp [spec_edge_blocks]
  · simp [spec_edge_blocks, spec_edge_block, List.map_map, Function.comp_def]

/-- C2: in the text the graph writer produces, the ids printed on every node
block's `in_edges` line and on its `out_edges` line are in strictly ascending
order, for every storage order of the node's adjacency. -/
theorem write_timing_graph_edge_lists_ascending (os : OStream) (tg : TimingGraph) :
    write_timing_graph os tg =
        some (os ++ "timing_graph:\n" ++ String.join ((spec_node_blocks tg).map NodeBlock.text)
          ++ String.join ((spec_edge_blocks tg).map EdgeBlock.text) ++ "\n") ∧
      ∀ b ∈ spec_node_blocks tg,
        b.in_edges.Sorted (fun x y => x < y) ∧ b.out_edges.Sorted (fun x y => x < y) := by
  refine ⟨?_, ?_⟩
  · rw [write_timing_graph_eq]
    simp [spec_timing_graph, String.append_assoc]
  · intro b hb
    simp only [spec_node_blocks, List.mem_map] at hb
    obtain ⟨p, _, rfl⟩ := hb
    exact ⟨sort_edges_strict _ p.2.in_nodup, sort_edges_strict _ p.2.out_nodup⟩

theorem enumFrom_spec_node_block_congr (l₁ l₂ : List Node)
    (h : List.Forall₂ Node.same_up_to_order l₁ l₂) (s : Nat) :
    (l₁.enumFrom s).map spec_node_block = (l₂.enumFrom s).map spec_node_block := by
  induction h generalizing s with
  | nil => rfl
  | cons hab _ ih =>
    obtain ⟨ht, hi, ho⟩ := hab
    simp only [List.enumFrom_cons, List.map_cons, ih (s + 1), spec_node_block, ht,
      sort_edges_congr hi, sort_edges_congr ho]

/-- C3: two graphs with the same node types and the same edges, whose
per-node in-edge and out-edge collections are permutations of each other,
get the same output from the graph writer; the writer is a function of the
graph, so two invocations on one graph agree as well. -/
theorem write_timing_graph_order_independent (os : OStream) (tg₁ tg₂ : TimingGraph)
    (hn : List.Forall₂ Node.same_up_to_order tg₁.nodes tg₂.nodes)
    (he : tg₁.edges = tg₂.edges) :
    write_timing_graph os tg₁ = write_timing_graph os tg₂ := by
  rw [write_timing_graph_eq, write_timing_graph_eq]
  have h := enumFrom_spec_node_block_congr tg₁.nodes tg₂.nodes hn 0
  simp only [spec_timing_graph, spec_node_blocks, spec_edge_blocks, List.enum, he, h]

/-- C3 at a concrete pair of graphs that differ in storage order. -/
theorem write_timing_graph_order_independent_witness :
    List.Forall₂ Node.same_up_to_order g_stored_desc.nodes g_stored_asc.nodes ∧
      g_stored_desc.edges = g_stored_asc.edges ∧
      g_stored_desc.nodes ≠ g_stored_asc.nodes ∧
      write_timing_graph "" g_stored_desc = write_timing_graph "" g_stored_asc :=
  have h : List.Forall₂ Node.same_up_to_order g_stored_desc.nodes g_stored_asc.nodes :=
    List.Forall₂.cons ⟨rfl, by decide, by decide⟩ List.Forall₂.nil
  ⟨h, rfl, by simp [g_stored_desc, g_stored_asc],
    write_timing_graph_order_independent "" g_stored_desc g_stored_asc h rfl⟩

/-! ## Lines -/

theorem digitChar_ne_newline : ∀ n, n < 10 → Nat.digitChar n ≠ '\n' := by
  decide

theorem toDigitsCore_no_newline (fuel n : Nat) (ds : List Char) (h : '\n' ∉ ds) :
    '\n' ∉ Nat.toDigitsCore 10 fuel n ds := by
  induction fuel generalizing n ds with
  | zero => simpa [Nat.toDigitsCore] using h
  | succ fuel ih =>
    have hd : '\n' ∉ Nat.digitChar (n % 10) :: ds := by
      simp only [List.mem_cons, not_or]
      exact ⟨fun e => digitChar_ne_newline _ (Nat.mod_lt n (by decide)) e.symm, h⟩
    simp only [Nat.toDigitsCore]
    split
    · exact hd
    · exact ih _ _ hd

theorem repr_no_newline (n : Nat) : '\n' ∉ (Nat.repr n).data := by
  simp only [Nat.repr, List.asString, Nat.toDigits]
  exact toDigitsCore_no_newline _ _ _ (by simp)

theorem line_breaks_append (a b : String) : line_breaks (a ++ b) = line_breaks a + line_breaks b := by
  simp [line_breaks]

theorem line_breaks_eq_zero {s : String} (h : '\n' ∉ s.data) : line_breaks s = 0 :=
  List.count_eq_zero.mpr h

theorem line_breaks_repr (n : Nat) : line_breaks (Nat.repr n) = 0 :=
  line_breaks_eq_zero (repr_no_newline n)

theorem line_breaks_join (l : List String) :
    line_breaks (String.join l) = (l.map line_breaks).sum := by
  induction l with
  | nil => rfl
  | cons a l ih => rw [join_cons, line_breaks_append, ih, List.map_cons, List.sum_cons]

/-- A body without line break followed by a line break is one line. -/
theorem is_line_of_body (body : String) (h : line_breaks body = 0) :
    is_line (body ++ "\n") = true := by
  have hl : (body ++ "\n").data.getLast? = some '\n' := by
    rw [String.data_append]
    exact List.getLast?_concat _
  have hb : line_breaks "\n" = 1 := by decide
  simp [is_line, hl, line_breaks_append, h, hb]

/-! ## The constraints writer computes the specified records -/

/-- A loop whose body appends the lines of the records `recs x` appends the
lines of all the records, in iteration order. -/
theorem foldl_emit_records {α R : Type} (f : OStream → α → OStream) (recs : α → List R)
    (txt : R → String) (hf : ∀ os x, f os x = os ++ String.join ((recs x).map txt))
    (l : List α) (os : OStream) :
    l.foldl f os = os ++ String.join ((l.flatMap recs).map txt) := by
  induction l generalizing os with
  | nil => simp [join_nil]
  | cons a l ih =>
    rw [List.foldl_cons, ih, hf, List.flatMap_cons, List.map_append, join_append,
      String.append_assoc]

theorem write_clock_eq (fmt : Float32 → String) (os : OStream) (d : ClockDomain) :
    write_clock os d = os ++ (ConstraintRecord.clock d.id d.name).text fmt := by
  simp [write_clock, ConstraintRecord.text, OStream.str, OStream.size_t, String.append_assoc]

theorem write_clock_source_eq (fmt : Float32 → String) (os : OStream) (d : ClockDomain) :
    write_clock_source os d =
      os ++ String.join ((spec_clock_source_records d).map (ConstraintRecord.text fmt)) := by
  unfold write_clock_source spec_clock_source_records
  cases d.source_node <;>
    simp [ConstraintRecord.text, OStream.str, OStream.size_t, String.append_assoc, join_nil,
      join_cons]

theorem write_constant_generator_eq (fmt : Float32 → String) (os : OStream) (n : NodeId) :
    write_constant_generator os n = os ++ (ConstraintRecord.constant_generator n).text fmt := by
  simp [write_constant_generator, ConstraintRecord.text, OStream.str, OStream.size_t,
    String.append_assoc]

theorem write_input_constraint_eq (fmt : Float32 → String) (os : OStream)
    (kv : NodeId × IoConstraint) :
    write_input_constraint fmt os kv =
      os ++ String.join ((spec_input_records kv).map (ConstraintRecord.text fmt)) := by
  cases h : isnan kv.2.constraint <;>
    simp [write_input_constraint, spec_input_records, h, ConstraintRecord.text, OStream.str,
      OStream.size_t, OStream.float, String.append_assoc, join_nil, join_cons]

theorem write_output_constraint_eq (fmt : Float32 → String) (os : OStream)
    (kv : NodeId × IoConstraint) :
    write_output_constraint fmt os kv =
      os ++ String.join ((spec_output_records kv).map (ConstraintRecord.text fmt)) := by
  cases h : isnan kv.2.constraint <;>
    simp [write_output_constraint, spec_output_records, h, ConstraintRecord.text, OStream.str,
      OStream.size_t, OStream.float, String.append_assoc, join_nil, join_cons]

theorem write_setup_constraint_eq (fmt : Float32 → String) (os : OStream)
    (kv : DomainPair × Float32) :
    write_setup_constraint fmt os kv =
      os ++ String.join ((spec_setup_records kv).map (ConstraintRecord.text fmt)) := by
  cases h : isnan kv.2 <;>
    simp [write_setup_constraint, spec_setup_records, h, ConstraintRecord.text, OStream.str,
      OStream.size_t, OStream.float, String.append_assoc, join_nil, join_cons]

theorem write_hold_constraint_eq (fmt : Float32 → String) (os : OStream)
    (kv : DomainPair × Float32) :
    write_hold_constraint fmt os kv =
      os ++ String.join ((spec_hold_records kv).map (ConstraintRecord.text fmt)) := by
  cases h : isnan kv.2 <;>
    simp [write_hold_constraint, spec_hold_records, h, ConstraintRecord.text, OStream.str,
      OStream.size_t, OStream.float, String.append_assoc, join_nil, join_cons]

/-- What the constraints writer appends is the header, the lines of the
specified records and the closing blank line. -/
theorem write_timing_constraints_eq (fmt : Float32 → String) (os : OStream)
    (tc : TimingConstraints) :
    write_timing_constraints fmt os tc =
      os ++ "timing_constraints:\n" ++
        String.join ((spec_constraint_records tc).map (ConstraintRecord.text fmt)) ++ "\n" := by
  unfold write_timing_constraints
  simp only [OStream.str]
  rw [foldl_emit_all write_clock _ (write_clock_eq fmt),
    foldl_emit_records write_clock_source _ _ (write_clock_source_eq fmt),
    foldl_emit_all write_constant_generator _ (write_constant_generator_eq fmt),
    foldl_emit_records _ _ _ (write_input_constraint_eq fmt),
    foldl_emit_records _ _ _ (write_output_constraint_eq fmt),
    foldl_emit_records _ _ _ (write_setup_constraint_eq fmt),
    foldl_emit_records _ _ _ (write_hold_constraint_eq fmt)]
  simp only [spec_constraint_records, List.map_append, join_append, String.append_assoc,
    List.map_map, Function.comp_def]

/-! ## Counting records by type -/

theorem countP_flatMap_indicator {α R : Type} (recs : α → List R) (q : R → Bool) (p : α → Bool)
    (h : ∀ x, (recs x).countP q = if p x then 1 else 0) (l : List α) :
    (l.flatMap recs).countP q = l.countP p := by
  induction l with
  | nil => simp
  | cons a l ih =>
    rw [List.flatMap_cons, List.countP_append, ih, h, List.countP_cons, Nat.add_comm]

theorem countP_flatMap_zero {α R : Type} (recs : α → List R) (q : R → Bool)
    (h : ∀ x, (recs x).countP q = 0) (l : List α) :
    (l.flatMap recs).countP q = 0 := by
  induction l with
  | nil => simp
  | cons a l ih => rw [List.flatMap_cons, List.countP_append, ih, h]

theorem countP_map_zero {α R : Type} (g : α → R) (q : R → Bool)
    (h : ∀ x, q (g x) = false) (l : List α) :
    (l.map g).countP q = 0 := by
  induction l with
  | nil => simp
  | cons a l ih => simp [List.countP_cons, ih, h]

theorem count_type_append (t : RecordType) (a b : List ConstraintRecord) :
    count_type t (a ++ b) = count_type t a + count_type t b := by
  simp [count_type]

theorem count_type_clock_source (t : RecordType) (h : t ≠ .CLOCK_SOURCE) (l : List ClockDomain) :
    count_type t (l.flatMap spec_clock_source_records) = 0 := by
  apply countP_flatMap_zero
  intro d
  unfold spec_clock_source_records
  cases d.source_node <;> simp [ConstraintRecord.type, Ne.symm h]

theorem count_type_input (t : RecordType) (l : List (NodeId × IoConstraint)) :
    count_type t (l.flatMap spec_input_records) =
      if t = .INPUT_CONSTRAINT then l.countP (fun kv => !isnan kv.2.constraint) else 0 := by
  split
  · next h =>
    subst h
    apply countP_flatMap_indicator
    intro x
    cases hx : isnan x.2.constraint <;> simp [spec_input_records, hx, ConstraintRecord.type]
  · next h =>
    apply countP_flatMap_zero
    intro x
    cases hx : isnan x.2.constraint <;>
      simp [spec_input_records, hx, ConstraintRecord.type, Ne.symm h]

theorem count_type_output (t : RecordType) (l : List (NodeId × IoConstraint)) :
    count_type t (l.flatMap spec_output_records) =
      if t = .OUTPUT_CONSTRAINT then l.countP (fun kv => !isnan kv.2.constraint) else 0 := by
  split
  · next h =>
    subst h
    apply countP_flatMap_indicator
    intro x
    cases hx : isnan x.2.constraint <;> simp [spec_output_records, hx, ConstraintRecord.type]
  · next h =>
    apply countP_flatMap_zero
    intro x
    cases hx : isnan x.2.constraint <;>
      simp [spec_output_records, hx, ConstraintRecord.type, Ne.symm h]

theorem count_type_setup (t : RecordType) (l : List (DomainPair × Float32)) :
    count_type t (l.flatMap spec_setup_records) =
      if t = .SETUP_CONSTRAINT then l.countP (fun kv => !isnan kv.2) else 0 := by
  split
  · next h =>
    subst h
    apply countP_flatMap_indicator
    intro x
    cases hx : isnan x.2 <;> simp [spec_setup_records, hx, ConstraintRecord.type]
  · next h =>
    apply countP_flatMap_zero
    intro x
    cases hx : isnan x.2 <;> simp [spec_setup_records, hx, ConstraintRecord.type, Ne.symm h]

theorem count_type_hold (t : RecordType) (l : List (DomainPair × Float32)) :
    count_type t (l.flatMap spec_hold_records) =
      if t = .HOLD_CONSTRAINT then l.countP (fun kv => !isnan kv.2) else 0 := by
  split
  · next h =>
    subst h
    apply countP_flatMap_indicator
    intro x
    cases hx : isnan x.2 <;> simp [spec_hold_records, hx, ConstraintRecord.type]
  · next h =>
    apply countP_flatMap_zero
    intro x
    cases hx : isnan x.2 <;> simp [spec_hold_records, hx, ConstraintRecord.type, Ne.symm h]

theorem count_type_clock (t : RecordType) (h : t ≠ .CLOCK) (l : List ClockDomain) :
    count_type t (l.map (fun d => ConstraintRecord.clock d.id d.name)) = 0 :=
  countP_map_zero _ _ (fun _ => by simp [ConstraintRecord.type, Ne.symm h]) l

theorem count_type_constant_generator (t : RecordType) (h : t ≠ .CONSTANT_GENERATOR)
    (l : List NodeId) :
    count_type t (l.map ConstraintRecord.constant_generator) = 0 :=
  countP_map_zero _ _ (fun _ => by simp [ConstraintRecord.type, Ne.symm h]) l

/-- The records of the four value-carrying types are as many as the non-NaN
entries of the corresponding mapping. -/
theorem count_type_constraint_records (tc : TimingConstraints) :
    count_type .INPUT_CONSTRAINT (spec_constraint_records tc) =
        tc.input_constraints.countP (fun kv => !isnan kv.2.constraint) ∧
      count_type .OUTPUT_CONSTRAINT (spec_constraint_records tc) =
        tc.output_constraints.countP (fun kv => !isnan kv.2.constraint) ∧
      count_type .SETUP_CONSTRAINT (spec_constraint_records tc) =
        tc.setup_constraints.countP (fun kv => !isnan kv.2) ∧
      count_type .HOLD_CONSTRAINT (spec_constraint_records tc) =
        tc.hold_constraints.countP (fun kv => !isnan kv.2) := by
  refine ⟨?_, ?_, ?_, ?_⟩ <;>
    simp [spec_constraint_records, count_type_append, count_type_clock,
      count_type_clock_source, count_type_constant_generator, count_type_input,
      count_type_output, count_type_setup, count_type_hold]

/-- Every record of a value-carrying type is printed as one line when the
float rendering has no line break. -/
theorem constraint_value_record_is_line (fmt : Float32 → String)
    (hfmt : ∀ x, '\n' ∉ (fmt x).data) (a b : Nat) (c : Float32) :
    is_line ((ConstraintRecord.input_constraint a b c).text fmt) = true ∧
      is_line ((ConstraintRecord.output_constraint a b c).text fmt) = true ∧
      is_line ((ConstraintRecord.setup_constraint a b c).text fmt) = true ∧
      is_line ((ConstraintRecord.hold_constraint a b c).text fmt) = true := by
  have hc : line_breaks (fmt c) = 0 := line_breaks_eq_zero (hfmt c)
  have h1 : line_breaks " type: INPUT_CONSTRAINT node: " = 0 := by decide
  have h2 : line_breaks " type: OUTPUT_CONSTRAINT node: " = 0 := by decide
  have h3 : line_breaks " type: SETUP_CONSTRAINT src_domain: " = 0 := by decide
  have h4 : line_breaks " type: HOLD_CONSTRAINT src_domain: " = 0 := by decide
  have h5 : line_breaks " domain: " = 0 := by decide
  have h6 : line_breaks " sink_domain: " = 0 := by decide
  have h7 : line_breaks " constraint: " = 0 := by decide
  refine ⟨?_, ?_, ?_, ?_⟩ <;>
  · apply is_line_of_body
    simp [line_breaks_append, line_breaks_repr, hc, h1, h2, h3, h4, h5, h6, h7]

/-! ## The tag formatter computes the specified lines -/

theorem write_tag_eq (fmt : Float32 → String) (type : String) (node_id : NodeId)
    (os : OStream) (tag : TimingTag) :
    write_tag fmt type node_id os tag =
      os ++ String.join ((spec_tag_lines type node_id tag).map (TagLine.text fmt)) := by
  cases ha : isnan tag.arr_time <;> cases hr : isnan tag.req_time <;>
    simp [write_tag, spec_tag_lines, spec_tag_line, tag_has_time, ha, hr, TagLine.text,
      time_field, OStream.str, OStream.size_t, OStream.float, String.append_assoc, join_nil,
      join_cons]

theorem write_tags_eq (fmt : Float32 → String) (os : OStream) (type : String)
    (tags : TimingTags) (node_id : NodeId) :
    write_tags fmt os type tags node_id =
      os ++ String.join ((tags.flatMap (spec_tag_lines type node_id)).map (TagLine.text fmt)) :=
  foldl_emit_records _ _ _ (write_tag_eq fmt type node_id) tags os

theorem length_flatMap_spec_tag_lines (type : String) (node_id : NodeId) (tags : TimingTags) :
    (tags.flatMap (spec_tag_lines type node_id)).length = tags.countP tag_has_time := by
  induction tags with
  | nil => simp
  | cons a l ih =>
    rw [List.flatMap_cons, List.length_append, ih, List.countP_cons, Nat.add_comm]
    cases h : tag_has_time a <;> simp [spec_tag_lines, h]

theorem line_breaks_time_field (fmt : Float32 → String) (hfmt : ∀ x, '\n' ∉ (fmt x).data)
    (keyword : String) (hk : line_breaks keyword = 0) (v : Option Float32) :
    line_breaks (time_field fmt keyword v) = 0 := by
  cases v with
  | none => rfl
  | some x => simp [time_field, line_breaks_append, hk, line_breaks_eq_zero (hfmt x)]

/-- A tag line is one line of text when neither the type label nor the float
rendering has a line break. -/
theorem tag_line_is_line (fmt : Float32 → String) (hfmt : ∀ x, '\n' ∉ (fmt x).data)
    (l : TagLine) (htype : '\n' ∉ l.type.data) :
    is_line (l.text fmt) = true := by
  have h1 : line_breaks " type: " = 0 := by decide
  have h2 : line_breaks " node: " = 0 := by decide
  have h3 : line_breaks " domain: " = 0 := by decide
  have h4 : line_breaks " arr: " = 0 := by decide
  have h5 : line_breaks " req: " = 0 := by decide
  apply is_line_of_body
  simp [line_breaks_append, line_breaks_repr, line_breaks_eq_zero htype,
    line_breaks_time_field fmt hfmt, h1, h2, h3, h4, h5]

theorem line_breaks_of_is_line {s : String} (h : is_line s = true) : line_breaks s = 1 := by
  simp [is_line] at h
  exact h.2

theorem line_breaks_join_lines (txt : TagLine → String) (ls : List TagLine)
    (h : ∀ l ∈ ls, is_line (txt l) = true) :
    line_breaks (String.join (ls.map txt)) = ls.length := by
  induction ls with
  | nil => rfl
  | cons a l ih =>
    rw [List.map_cons, join_cons, line_breaks_append, List.length_cons,
      ih (fun x hx => h x (List.mem_cons_of_mem _ hx)),
      line_breaks_of_is_line (h a (List.mem_cons_self _ _)), Nat.add_comm]

theorem spec_tag_lines_type (type : String) (node_id : NodeId) (tags : TimingTags) :
    ∀ l ∈ tags.flatMap (spec_tag_lines type node_id), l.type = type ∧ l.node = node_id := by
  intro l hl
  simp only [List.mem_flatMap] at hl
  obtain ⟨t, _, ht⟩ := hl
  unfold spec_tag_lines at ht
  split at ht
  · simp only [List.mem_singleton] at ht
    subst ht
    exact ⟨rfl, rfl⟩
  · simp at ht

theorem sample_fmt_single_line : ∀ x, '\n' ∉ (sample_fmt x).data := by
  intro x
  unfold sample_fmt
  split_ifs <;> decide

/-! ## Constraints writer: claims -/

/-- C4: in the constraints writer every entry of the input, output, setup
and hold mappings appends nothing when its value is NaN and appends exactly
one line of the matching type when its value is not NaN; so the records of
each of these four types are as many as the non-NaN entries of the
corresponding mapping. -/
theorem write_timing_constraints_nan_filter (fmt : Float32 → String)
    (hfmt : ∀ x, '\n' ∉ (fmt x).data) (os : OStream) (tc : TimingConstraints) :
    (∀ (o : OStream) (kv : NodeId × IoConstraint), write_input_constraint fmt o kv =
        if isnan kv.2.constraint then o
        else o ++ (ConstraintRecord.input_constraint kv.1 kv.2.domain kv.2.constraint).text fmt) ∧
      (∀ (o : OStream) (kv : NodeId × IoConstraint), write_output_constraint fmt o kv =
        if isnan kv.2.constraint then o
        else o ++ (ConstraintRecord.output_constraint kv.1 kv.2.domain kv.2.constraint).text fmt) ∧
      (∀ (o : OStream) (kv : DomainPair × Float32), write_setup_constraint fmt o kv =
        if isnan kv.2 then o
        else o ++ (ConstraintRecord.setup_constraint kv.1.src_domain_id kv.1.sink_domain_id
          kv.2).text fmt) ∧
      (∀ (o : OStream) (kv : DomainPair × Float32), write_hold_constraint fmt o kv =
        if isnan kv.2 then o
        else o ++ (ConstraintRecord.hold_constraint kv.1.src_domain_id kv.1.sink_domain_id
          kv.2).text fmt) ∧
      (∀ (a b : Nat) (c : Float32),
        is_line ((ConstraintRecord.input_constraint a b c).text fmt) = true ∧
        is_line ((ConstraintRecord.output_constraint a b c).text fmt) = true ∧
        is_line ((ConstraintRecord.setup_constraint a b c).text fmt) = true ∧
        is_line ((ConstraintRecord.hold_constraint a b c).text fmt) = true) ∧
      write_timing_constraints fmt os tc =
        os ++ "timing_constraints:\n" ++
          String.join ((spec_constraint_records tc).map (ConstraintRecord.text fmt)) ++ "\n" ∧
      count_type .INPUT_CONSTRAINT (spec_constraint_records tc) =
        tc.input_constraints.countP (fun kv => !isnan kv.2.constraint) ∧
      count_type .OUTPUT_CONSTRAINT (spec_constraint_records tc) =
        tc.output_constraints.countP (fun kv => !isnan kv.2.constraint) ∧
      count_type .SETUP_CONSTRAINT (spec_constraint_records tc) =
        tc.setup_constraints.countP (fun kv => !isnan kv.2) ∧
      count_type .HOLD_CONSTRAINT (spec_constraint_records tc) =
        tc.hold_constraints.countP (fun kv => !isnan kv.2) := by
  refine ⟨?_, ?_, ?_, ?_, constraint_value_record_is_line fmt hfmt,
    write_timing_constraints_eq fmt os tc, count_type_constraint_records tc⟩
  · intro o kv
    rw [write_input_constraint_eq]
    cases h : isnan kv.2.constraint <;> simp [spec_input_records, h, join_nil, join_cons]
  · intro o kv
    rw [write_output_constraint_eq]
    cases h : isnan kv.2.constraint <;> simp [spec_output_records, h, join_nil, join_cons]
  · intro o kv
    rw [write_setup_constraint_eq]
    cases h : isnan kv.2 <;> simp [spec_setup_records, h, join_nil, join_cons]
  · intro o kv
    rw [write_hold_constraint_eq]
    cases h : isnan kv.2 <;> simp [spec_hold_records, h, join_nil, join_cons]

/-- C4 at the example constraints: the NaN entries leave no line, each of the
two entries with a value leaves one. -/
theorem write_timing_constraints_nan_filter_witness :
    (∀ x, '\n' ∉ (sample_fmt x).data) ∧
      write_timing_constraints sample_fmt "" tc_nan_sample =
        "timing_constraints:\n type: CLOCK domain: 0 name: \"clk\"\n" ++
        " type: INPUT_CONSTRAINT node: 3 domain: 0 constraint: 2.5\n" ++
        " type: SETUP_CONSTRAINT src_domain: 0 sink_domain: 0 constraint: 5\n\n" ∧
      count_type .INPUT_CONSTRAINT (spec_constraint_records tc_nan_sample) = 1 ∧
      count_type .OUTPUT_CONSTRAINT (spec_constraint_records tc_nan_sample) = 0 ∧
      count_type .SETUP_CONSTRAINT (spec_constraint_records tc_nan_sample) = 1 ∧
      count_type .HOLD_CONSTRAINT (spec_constraint_records tc_nan_sample) = 0 :=
  have h := write_timing_constraints_nan_filter sample_fmt sample_fmt_single_line ""
    tc_nan_sample
  ⟨sample_fmt_single_line, by rfl, h.2.2.2.2.2.2.1.trans (by decide),
    h.2.2.2.2.2.2.2.1.trans (by decide), h.2.2.2.2.2.2.2.2.1.trans (by decide),
    h.2.2.2.2.2.2.2.2.2.trans (by decide)⟩

/-! ## Tag formatter: claims -/

/-- C5 fails as stated: for a tag with arrival NaN and required 5.0 the
formatter does write a line, made of the type label, node id and domain id. -/
theorem write_tags_nan_arrival_emits_line :
    write_tags sample_fmt "" "SETUP_DATA" [⟨0, Float32.qnan, Float32.five⟩] 0 =
        " type: SETUP_DATA node: 0 domain: 0\n" ∧
      write_tags sample_fmt "" "SETUP_DATA" [⟨0, Float32.qnan, Float32.five⟩] 0 ≠ "" := by
  decide

/-- C5 as amended: for a tag with arrival NaN and required 5.0, whatever the
node, the domain and the type label, the formatter writes exactly one line,
which starts with the type label, the node id and the domain id. -/
theorem write_tags_nan_arrival_one_line (fmt : Float32 → String) (type : String)
    (htype : '\n' ∉ type.data) (os : OStream) (node_id : NodeId) (domain : DomainId)
    (arr : Float32) (harr : isnan arr = true) :
    ∃ rest : String,
      write_tags fmt os type [⟨domain, arr, Float32.five⟩] node_id =
          os ++ (" type: " ++ type ++ " node: " ++ Nat.repr node_id ++ " domain: " ++
            Nat.repr domain ++ rest) ∧
        is_line (" type: " ++ type ++ " node: " ++ Nat.repr node_id ++ " domain: " ++
          Nat.repr domain ++ rest) = true := by
  refine ⟨"\n", ?_, ?_⟩
  · have h5 : isnan Float32.five = false := by decide
    simp [write_tags, write_tag, harr, h5, OStream.str, OStream.size_t, String.append_assoc]
  · have h1 : line_breaks " type: " = 0 := by decide
    have h2 : line_breaks " node: " = 0 := by decide
    have h3 : line_breaks " domain: " = 0 := by decide
    apply is_line_of_body
    simp [line_breaks_append, line_breaks_repr, line_breaks_eq_zero htype, h1, h2, h3]

/-- C5 as amended, at the quiet NaN for node 3, domain 1 and label
`SETUP_DATA`. -/
theorem write_tags_nan_arrival_one_line_witness :
    '\n' ∉ "SETUP_DATA".data ∧ isnan Float32.qnan = true ∧
      ∃ rest : String,
        write_tags sample_fmt "" "SETUP_DATA" [⟨1, Float32.qnan, Float32.five⟩] 3 =
            "" ++ (" type: " ++ "SETUP_DATA" ++ " node: " ++ Nat.repr 3 ++ " domain: " ++
              Nat.repr 1 ++ rest) ∧
          is_line (" type: " ++ "SETUP_DATA" ++ " node: " ++ Nat.repr 3 ++ " domain: " ++
            Nat.repr 1 ++ rest) = true :=
  ⟨by decide, by decide,
    write_tags_nan_arrival_one_line sample_fmt "SETUP_DATA" (by decide) "" 3 1 Float32.qnan
      (by decide)⟩

/-- C6: the formatter writes exactly one line for a tag whose arrival or
required time is not NaN and nothing for a tag whose times are both NaN; the
number of lines it writes for a tag collection is the number of its tags with
at least one non-NaN time. -/
theorem write_tags_line_count (fmt : Float32 → String) (hfmt : ∀ x, '\n' ∉ (fmt x).data)
    (type : String) (htype : '\n' ∉ type.data) (os : OStream) (tags : TimingTags)
    (node_id : NodeId) :
    (∀ (o : OStream) (tag : TimingTag), write_tags fmt o type [tag] node_id =
        if !isnan tag.arr_time || !isnan tag.req_time then
          o ++ (spec_tag_line type node_id tag).text fmt
        else o) ∧
      (∀ tag : TimingTag, is_line ((spec_tag_line type node_id tag).text fmt) = true) ∧
      write_tags fmt os type tags node_id = os ++ write_tags fmt "" type tags node_id ∧
      line_breaks (write_tags fmt "" type tags node_id) =
        tags.countP (fun tag => !isnan tag.arr_time || !isnan tag.req_time) := by
  have hline : ∀ tag : TimingTag, is_line ((spec_tag_line type node_id tag).text fmt) = true :=
    fun tag => tag_line_is_line fmt hfmt _ htype
  refine ⟨?_, hline, ?_, ?_⟩
  · intro o tag
    rw [write_tags_eq]
    cases h : tag_has_time tag
    · have h' : (!isnan tag.arr_time || !isnan tag.req_time) = false := h
      simp [spec_tag_lines, h, h', join_nil]
    · have h' : (!isnan tag.arr_time || !isnan tag.req_time) = true := h
      simp [spec_tag_lines, h, h', join_nil, join_cons]
  · rw [write_tags_eq, write_tags_eq, String.empty_append]
  · rw [write_tags_eq, String.empty_append, line_breaks_join_lines]
    · exact length_flatMap_spec_tag_lines type node_id tags
    · intro l hl
      exact tag_line_is_line fmt hfmt l
        (by rw [(spec_tag_lines_type type node_id tags l hl).1]; exact htype)

/-- C6 at a collection of three tags, one of them with both times NaN: two
lines. -/
theorem write_tags_line_count_witness :
    (∀ x, '\n' ∉ (sample_fmt x).data) ∧ '\n' ∉ "HOLD_CLOCK".data ∧
      line_breaks (write_tags sample_fmt "" "HOLD_CLOCK"
        [⟨0, Float32.five, Float32.qnan⟩, ⟨1, Float32.qnan, Float32.qnan⟩,
          ⟨2, Float32.qnan, Float32.five⟩] 4) = 2 :=
  ⟨sample_fmt_single_line, by decide,
    (write_tags_line_count sample_fmt sample_fmt_single_line "HOLD_CLOCK" (by decide) ""
      [⟨0, Float32.five, Float32.qnan⟩, ⟨1, Float32.qnan, Float32.qnan⟩,
        ⟨2, Float32.qnan, Float32.five⟩] 4).2.2.2.trans (by decide)⟩

/-- C7: a line the formatter writes for a tag consists of the type label, the
node id and the tag's clock domain id, followed by the ` arr: ` field and the
` req: ` field when the arrival time is not NaN, whatever the required time,
and by neither field when the arrival time is NaN, whatever the required
time. -/
theorem write_tags_line_fields (fmt : Float32 → String) (os : OStream) (type : String)
    (node_id : NodeId) (tag : TimingTag)
    (h : (!isnan tag.arr_time || !isnan tag.req_time) = true) :
    write_tags fmt os type [tag] node_id =
      os ++ (" type: " ++ type ++ " node: " ++ Nat.repr node_id ++ " domain: " ++
        Nat.repr tag.clock_domain ++
        (if isnan tag.arr_time then ""
         else " arr: " ++ fmt tag.arr_time ++ " req: " ++ fmt tag.req_time) ++ "\n") := by
  cases ha : isnan tag.arr_time <;> cases hr : isnan tag.req_time <;>
    simp [ha, hr] at h <;>
    simp [write_tags, write_tag, ha, hr, OStream.str, OStream.size_t, OStream.float,
      String.append_assoc]

/-- C7 at a tag with arrival 5.0 and required NaN: both fields are written. -/
theorem write_tags_line_fields_witness :
    (!isnan Float32.five || !isnan Float32.qnan) = true ∧
      write_tags sample_fmt "" "SETUP_DATA" [⟨2, Float32.five, Float32.qnan⟩] 7 =
        " type: SETUP_DATA node: 7 domain: 2 arr: 5 req: nan\n" :=
  ⟨by decide,
    (write_tags_line_fields sample_fmt "" "SETUP_DATA" 7 ⟨2, Float32.five, Float32.qnan⟩
      (by decide)).trans (by decide)⟩

/-! ## The result writer -/

theorem write_tags_append (fmt : Float32 → String) (os : OStream) (type : String)
    (tags : TimingTags) (node_id : NodeId) :
    write_tags fmt os type tags node_id = os ++ write_tags fmt "" type tags node_id := by
  rw [write_tags_eq, write_tags_eq, String.empty_append]

/-- One pass of the result writer over the nodes appends, node after node,
what the formatter writes for the node's tags. -/
theorem pass_eq_join_write_tags (fmt : Float32 → String) (type : String)
    (get_tags : NodeId → TimingTags) (n : Nat) (os : OStream) :
    (List.range n).foldl (fun os node_idx => write_tags fmt os type (get_tags node_idx) node_idx)
        os =
      os ++ String.join ((List.range n).map
        (fun i => write_tags fmt "" type (get_tags i) i)) :=
  foldl_emit_all _ _ (fun os i => write_tags_append fmt os type (get_tags i) i) _ os

/-- One pass of the result writer appends the lines of the specified pass. -/
theorem pass_eq_spec_lines (fmt : Float32 → String) (type : String)
    (get_tags : NodeId → TimingTags) (n : Nat) (os : OStream) :
    (List.range n).foldl (fun os node_idx => write_tags fmt os type (get_tags node_idx) node_idx)
        os =
      os ++ String.join ((spec_pass_lines type get_tags n).map (TagLine.text fmt)) :=
  foldl_emit_records _ _ _ (fun os i => write_tags_eq fmt os type (get_tags i) i) _ os

theorem write_setup_result_some (fmt : Float32 → String) (os : OStream) (tg : TimingGraph)
    (sa : SetupTimingAnalyzer) :
    write_setup_result fmt os tg (some sa) =
      os ++ String.join ((spec_setup_lines tg.nodes.length sa).map (TagLine.text fmt)) := by
  simp only [write_setup_result, pass_eq_spec_lines, spec_setup_lines, List.map_append,
    join_append, String.append_assoc]

theorem write_hold_result_some (fmt : Float32 → String) (os : OStream) (tg : TimingGraph)
    (ha : HoldTimingAnalyzer) :
    write_hold_result fmt os tg (some ha) =
      os ++ String.join ((spec_hold_lines tg.nodes.length ha).map (TagLine.text fmt)) := by
  simp only [write_hold_result, pass_eq_spec_lines, spec_hold_lines, List.map_append,
    join_append, String.append_assoc]

theorem write_setup_result_append (fmt : Float32 → String) (os : OStream) (tg : TimingGraph)
    (setup : Option SetupTimingAnalyzer) :
    write_setup_result fmt os tg setup = os ++ write_setup_result fmt "" tg setup := by
  cases setup with
  | none => simp [write_setup_result]
  | some sa => rw [write_setup_result_some, write_setup_result_some, String.empty_append]

theorem write_hold_result_append (fmt : Float32 → String) (os : OStream) (tg : TimingGraph)
    (hold : Option HoldTimingAnalyzer) :
    write_hold_result fmt os tg hold = os ++ write_hold_result fmt "" tg hold := by
  cases hold with
  | none => simp [write_hold_result]
  | some ha => rw [write_hold_result_some, write_hold_result_some, String.empty_append]

theorem spec_pass_lines_type (type : String) (get_tags : NodeId → TimingTags) (n : Nat) :
    ∀ l ∈ spec_pass_lines type get_tags n, l.type = type ∧ l.node < n := by
  intro l hl
  simp only [spec_pass_lines, List.mem_flatMap, List.mem_range] at hl
  obtain ⟨i, hi, t, ht, hl⟩ := hl
  have h := spec_tag_lines_type type i (get_tags i) l
    (List.mem_flatMap.mpr ⟨t, ht, hl⟩)
  exact ⟨h.1, by rw [h.2]; exact hi⟩

/-! ## Result writer: claims -/

/-- C8: for an analyzer with neither the setup-capable nor the hold-capable
view the result writer writes the `analysis_result:` header line and the
closing blank line only, whatever the graph. -/
theorem write_analysis_result_no_view (fmt : Float32 → String) (os : OStream)
    (tg : TimingGraph) :
    write_analysis_result fmt os tg ⟨none, none⟩ = os ++ "analysis_result:\n" ++ "\n" := by
  simp [write_analysis_result, write_setup_result, write_hold_result, OStream.str]

/-- C9: for a setup-capable analyzer the result writer writes, after the
header, what the formatter writes under `SETUP_DATA` for the setup data tags
of nodes `0, ..., n-1` in ascending order, then what it writes under
`SETUP_CLOCK` for their setup clock tags in the same order; for a
hold-capable analyzer it writes likewise the `HOLD_DATA` pass and then the
`HOLD_CLOCK` pass. What the formatter writes for a node under a label are
lines of that label and that node. -/
theorem write_analysis_result_passes (fmt : Float32 → String) (os : OStream)
    (tg : TimingGraph) (sa : SetupTimingAnalyzer) (ha : HoldTimingAnalyzer)
    (setup : Option SetupTimingAnalyzer) (hold : Option HoldTimingAnalyzer) :
    write_analysis_result fmt os tg ⟨some sa, hold⟩ =
        os ++ "analysis_result:\n" ++
          String.join ((List.range tg.nodes.length).map
            (fun i => write_tags fmt "" "SETUP_DATA" (sa.get_setup_data_tags i) i)) ++
          String.join ((List.range tg.nodes.length).map
            (fun i => write_tags fmt "" "SETUP_CLOCK" (sa.get_setup_clock_tags i) i)) ++
          write_hold_result fmt "" tg hold ++ "\n" ∧
      write_analysis_result fmt os tg ⟨setup, some ha⟩ =
        os ++ "analysis_result:\n" ++ write_setup_result fmt "" tg setup ++
          String.join ((List.range tg.nodes.length).map
            (fun i => write_tags fmt "" "HOLD_DATA" (ha.get_hold_data_tags i) i)) ++
          String.join ((List.range tg.nodes.length).map
            (fun i => write_tags fmt "" "HOLD_CLOCK" (ha.get_hold_clock_tags i) i)) ++ "\n" ∧
      ∀ (type : String) (tags : TimingTags) (i : NodeId),
        write_tags fmt "" type tags i =
            String.join ((tags.flatMap (spec_tag_lines type i)).map (TagLine.text fmt)) ∧
          ∀ l ∈ tags.flatMap (spec_tag_lines type i), l.type = type ∧ l.node = i := by
  refine ⟨?_, ?_, ?_⟩
  · simp only [write_analysis_result, OStream.str]
    rw [write_hold_result_append]
    simp only [write_setup_result, pass_eq_join_write_tags, String.append_assoc]
  · simp only [write_analysis_result, OStream.str]
    rw [write_setup_result_append]
    simp only [write_hold_result, pass_eq_join_write_tags, String.append_assoc]
  · intro type tags i
    refine ⟨?_, spec_tag_lines_type type i tags⟩
    rw [write_tags_eq, String.empty_append]

/-- C10: the two capabilities are dispatched independently. With both views
the lines written are those of the setup category followed by those of the
hold category; a setup-only analyzer gets the lines of the setup category
alone and a hold-only analyzer those of the hold category alone. The lines of
the setup category are `SETUP_DATA` and `SETUP_CLOCK` lines, those of the hold
category `HOLD_DATA` and `HOLD_CLOCK` lines. -/
theorem write_analysis_result_independent (fmt : Float32 → String) (os : OStream)
    (tg : TimingGraph) (sa : SetupTimingAnalyzer) (ha : HoldTimingAnalyzer) :
    write_analysis_result fmt os tg ⟨some sa, some ha⟩ =
        os ++ "analysis_result:\n" ++
          String.join ((spec_setup_lines tg.nodes.length sa ++
            spec_hold_lines tg.nodes.length ha).map (TagLine.text fmt)) ++ "\n" ∧
      write_analysis_result fmt os tg ⟨some sa, none⟩ =
        os ++ "analysis_result:\n" ++
          String.join ((spec_setup_lines tg.nodes.length sa).map (TagLine.text fmt)) ++ "\n" ∧
      write_analysis_result fmt os tg ⟨none, some ha⟩ =
        os ++ "analysis_result:\n" ++
          String.join ((spec_hold_lines tg.nodes.length ha).map (TagLine.text fmt)) ++ "\n" ∧
      (∀ l ∈ spec_setup_lines tg.nodes.length sa,
        l.type = "SETUP_DATA" ∨ l.type = "SETUP_CLOCK") ∧
      (∀ l ∈ spec_hold_lines tg.nodes.length ha,
        l.type = "HOLD_DATA" ∨ l.type = "HOLD_CLOCK") := by
  refine ⟨?_, ?_, ?_, ?_, ?_⟩
  · simp only [write_analysis_result, OStream.str, write_setup_result_some,
      write_hold_result_some, List.map_append, join_append, String.append_assoc]
  · simp only [write_analysis_result, OStream.str, write_setup_result_some,
      write_hold_result, String.append_assoc]
  · simp only [write_analysis_result, OStream.str, write_hold_result_some,
      write_setup_result, String.append_assoc]
  · intro l hl
    simp only [spec_setup_lines, List.mem_append] at hl
    rcases hl with h | h
    · exact Or.inl (spec_pass_lines_type _ _ _ l h).1
    · exact Or.inr (spec_pass_lines_type _ _ _ l h).1
  · intro l hl
    simp only [spec_hold_lines, List.mem_append] at hl
    rcases hl with h | h
    · exact Or.inl (spec_pass_lines_type _ _ _ l h).1
    · exact Or.inr (spec_pass_lines_type _ _ _ l h).1

/-! ## Groups of the constraints section -/

theorem clock_records_type (l : List ClockDomain) :
    ∀ r ∈ l.map (fun d => ConstraintRecord.clock d.id d.name), r.type = .CLOCK := by
  intro r hr
  simp only [List.mem_map] at hr
  obtain ⟨d, _, rfl⟩ := hr
  rfl

theorem clock_source_records_type (l : List ClockDomain) :
    ∀ r ∈ l.flatMap spec_clock_source_records, r.type = .CLOCK_SOURCE := by
  intro r hr
  simp only [List.mem_flatMap] at hr
  obtain ⟨d, _, hd⟩ := hr
  unfold spec_clock_source_records at hd
  split at hd <;> simp at hd
  subst hd
  rfl

theorem constant_generator_records_type (l : List NodeId) :
    ∀ r ∈ l.map ConstraintRecord.constant_generator, r.type = .CONSTANT_GENERATOR := by
  intro r hr
  simp only [List.mem_map] at hr
  obtain ⟨d, _, rfl⟩ := hr
  rfl

theorem input_records_type (l : List (NodeId × IoConstraint)) :
    ∀ r ∈ l.flatMap spec_input_records, r.type = .INPUT_CONSTRAINT := by
  intro r hr
  simp only [List.mem_flatMap] at hr
  obtain ⟨d, _, hd⟩ := hr
  unfold spec_input_records at hd
  split at hd <;> simp at hd
  subst hd
  rfl

theorem output_records_type (l : List (NodeId × IoConstraint)) :
    ∀ r ∈ l.flatMap spec_output_records, r.type = .OUTPUT_CONSTRAINT := by
  intro r hr
  simp only [List.mem_flatMap] at hr
  obtain ⟨d, _, hd⟩ := hr
  unfold spec_output_records at hd
  split at hd <;> simp at hd
  subst hd
  rfl

theorem setup_records_type (l : List (DomainPair × Float32)) :
    ∀ r ∈ l.flatMap spec_setup_records, r.type = .SETUP_CONSTRAINT := by
  intro r hr
  simp only [List.mem_flatMap] at hr
  obtain ⟨d, _, hd⟩ := hr
  unfold spec_setup_records at hd
  split at hd <;> simp at hd
  subst hd
  rfl

theorem hold_records_type (l : List (DomainPair × Float32)) :
    ∀ r ∈ l.flatMap spec_hold_records, r.type = .HOLD_CONSTRAINT := by
  intro r hr
  simp only [List.mem_flatMap] at hr
  obtain ⟨d, _, hd⟩ := hr
  unfold spec_hold_records at hd
  split at hd <;> simp at hd
  subst hd
  rfl

/-- Appending records of one type `t` to a grouped list whose types come no
later than `t` gives a grouped list whose types come no later than `t`. -/
theorem grouped_append (rs seg : List ConstraintRecord) (k : Nat) (t : RecordType)
    (hrs : grouped rs ∧ ∀ r ∈ rs, r.type.rank ≤ k) (hseg : ∀ r ∈ seg, r.type = t)
    (hk : k ≤ t.rank) :
    grouped (rs ++ seg) ∧ ∀ r ∈ rs ++ seg, r.type.rank ≤ t.rank := by
  refine ⟨?_, ?_⟩
  · unfold grouped
    rw [List.pairwise_append]
    refine ⟨hrs.1, ?_, ?_⟩
    · rw [List.pairwise_iff_forall_sublist]
      intro a b hab
      have ha := hseg a (hab.subset (by simp))
      have hb := hseg b (hab.subset (by simp))
      rw [ha, hb]
    · intro a ha b hb
      rw [hseg b hb]
      exact Nat.le_trans (hrs.2 a ha) hk
  · intro r hr
    rcases List.mem_append.mp hr with h | h
    · exact Nat.le_trans (hrs.2 r h) hk
    · rw [hseg r h]

/-- The specified records are grouped in the fixed sequence of types. -/
theorem spec_constraint_records_grouped (tc : TimingConstraints) :
    grouped (spec_constraint_records tc) := by
  have h0 : grouped ([] : List ConstraintRecord) ∧
      ∀ r ∈ ([] : List ConstraintRecord), r.type.rank ≤ 0 :=
    ⟨List.Pairwise.nil, fun _ h => by simp at h⟩
  have h1 := grouped_append _ _ 0 .CLOCK h0 (clock_records_type tc.clock_domains) (by decide)
  have h2 := grouped_append _ _ _ .CLOCK_SOURCE h1
    (clock_source_records_type tc.clock_domains) (by decide)
  have h3 := grouped_append _ _ _ .CONSTANT_GENERATOR h2
    (constant_generator_records_type tc.constant_generators) (by decide)
  have h4 := grouped_append _ _ _ .INPUT_CONSTRAINT h3
    (input_records_type tc.input_constraints) (by decide)
  have h5 := grouped_append _ _ _ .OUTPUT_CONSTRAINT h4
    (output_records_type tc.output_constraints) (by decide)
  have h6 := grouped_append _ _ _ .SETUP_CONSTRAINT h5
    (setup_records_type tc.setup_constraints) (by decide)
  have h7 := grouped_append _ _ _ .HOLD_CONSTRAINT h6
    (hold_records_type tc.hold_constraints) (by decide)
  simpa [spec_constraint_records] using h7.1

theorem records_of_type_append (t : RecordType) (a b : List ConstraintRecord) :
    records_of_type t (a ++ b) = records_of_type t a ++ records_of_type t b := by
  simp [records_of_type]

theorem records_of_type_seg (t u : RecordType) (l : List ConstraintRecord)
    (h : ∀ r ∈ l, r.type = u) : records_of_type t l = if u = t then l else [] := by
  unfold records_of_type
  split
  · next htu =>
    rw [List.filter_eq_self]
    intro r hr
    simp [h r hr, htu]
  · next htu =>
    rw [List.filter_eq_nil_iff]
    intro r hr
    simp [h r hr, htu]

theorem flatMap_ite_singleton {α β : Type} (p : α → Bool) (g : α → β) (l : List α) :
    l.flatMap (fun x => if p x then [] else [g x]) = (l.filter (fun x => !p x)).map g := by
  induction l with
  | nil => rfl
  | cons a l ih =>
    rw [List.flatMap_cons, ih]
    cases h : p a <;> simp [h]

theorem flatMap_clock_source (l : List ClockDomain) :
    l.flatMap spec_clock_source_records =
      l.filterMap (fun d => d.source_node.map (fun n => ConstraintRecord.clock_source n d.id)) := by
  induction l with
  | nil => rfl
  | cons a l ih =>
    rw [List.flatMap_cons, ih]
    cases h : a.source_node <;> simp [spec_clock_source_records, h, List.filterMap_cons]

/-- The records of each type among the specified records are the image, in
iteration order, of the source collection of that group. -/
theorem records_of_type_spec (tc : TimingConstraints) :
    records_of_type .CLOCK (spec_constraint_records tc) =
        tc.clock_domains.map (fun d => ConstraintRecord.clock d.id d.name) ∧
      records_of_type .CLOCK_SOURCE (spec_constraint_records tc) =
        tc.clock_domains.filterMap
          (fun d => d.source_node.map (fun n => ConstraintRecord.clock_source n d.id)) ∧
      records_of_type .CONSTANT_GENERATOR (spec_constraint_records tc) =
        tc.constant_generators.map ConstraintRecord.constant_generator ∧
      records_of_type .INPUT_CONSTRAINT (spec_constraint_records tc) =
        (tc.input_constraints.filter (fun kv => !isnan kv.2.constraint)).map
          (fun kv => ConstraintRecord.input_constraint kv.1 kv.2.domain kv.2.constraint) ∧
      records_of_type .OUTPUT_CONSTRAINT (spec_constraint_records tc) =
        (tc.output_constraints.filter (fun kv => !isnan kv.2.constraint)).map
          (fun kv => ConstraintRecord.output_constraint kv.1 kv.2.domain kv.2.constraint) ∧
      records_of_type .SETUP_CONSTRAINT (spec_constraint_records tc) =
        (tc.setup_constraints.filter (fun kv => !isnan kv.2)).map
          (fun kv => ConstraintRecord.setup_constraint kv.1.src_domain_id kv.1.sink_domain_id
            kv.2) ∧
      records_of_type .HOLD_CONSTRAINT (spec_constraint_records tc) =
        (tc.hold_constraints.filter (fun kv => !isnan kv.2)).map
          (fun kv => ConstraintRecord.hold_constraint kv.1.src_domain_id kv.1.sink_domain_id
            kv.2) := by
  have c := clock_records_type tc.clock_domains
  have cs := clock_source_records_type tc.clock_domains
  have cg := constant_generator_records_type tc.constant_generators
  have ic := input_records_type tc.input_constraints
  have oc := output_records_type tc.output_constraints
  have sc := setup_records_type tc.setup_constraints
  have hc := hold_records_type tc.hold_constraints
  have hi : tc.input_constraints.flatMap spec_input_records =
      (tc.input_constraints.filter (fun kv => !isnan kv.2.constraint)).map
        (fun kv => ConstraintRecord.input_constraint kv.1 kv.2.domain kv.2.constraint) :=
    flatMap_ite_singleton (fun kv : NodeId × IoConstraint => isnan kv.2.constraint) _ _
  have ho : tc.output_constraints.flatMap spec_output_records =
      (tc.output_constraints.filter (fun kv => !isnan kv.2.constraint)).map
        (fun kv => ConstraintRecord.output_constraint kv.1 kv.2.domain kv.2.constraint) :=
    flatMap_ite_singleton (fun kv : NodeId × IoConstraint => isnan kv.2.constraint) _ _
  have hs : tc.setup_constraints.flatMap spec_setup_records =
      (tc.setup_constraints.filter (fun kv => !isnan kv.2)).map
        (fun kv => ConstraintRecord.setup_constraint kv.1.src_domain_id kv.1.sink_domain_id
          kv.2) :=
    flatMap_ite_singleton (fun kv : DomainPair × Float32 => isnan kv.2) _ _
  have hh : tc.hold_constraints.flatMap spec_hold_records =
      (tc.hold_constraints.filter (fun kv => !isnan kv.2)).map
        (fun kv => ConstraintRecord.hold_constraint kv.1.src_domain_id kv.1.sink_domain_id
          kv.2) :=
    flatMap_ite_singleton (fun kv : DomainPair × Float32 => isnan kv.2) _ _
  rw [← hi, ← ho, ← hs, ← hh, ← flatMap_clock_source]
  refine ⟨?_, ?_, ?_, ?_, ?_, ?_, ?_⟩ <;>
    simp [spec_constraint_records, records_of_type_append, records_of_type_seg _ _ _ c,
      records_of_type_seg _ _ _ cs, records_of_type_seg _ _ _ cg, records_of_type_seg _ _ _ ic,
      records_of_type_seg _ _ _ oc, records_of_type_seg _ _ _ sc, records_of_type_seg _ _ _ hc]

theorem record_text_label (fmt : Float32 → String) (r : ConstraintRecord) :
    ∃ rest : String, r.text fmt = " type: " ++ r.type.label ++ " " ++ rest := by
  cases r with
  | clock d name =>
    exact ⟨"domain: " ++ Nat.repr d ++ " name: \"" ++ name ++ "\"\n", by
      simp [ConstraintRecord.text, ConstraintRecord.type, RecordType.label, String.append_assoc]
      rfl⟩
  | clock_source n d =>
    exact ⟨"node: " ++ Nat.repr n ++ " domain: " ++ Nat.repr d ++ "\n", by
      simp [ConstraintRecord.text, ConstraintRecord.type, RecordType.label, String.append_assoc]
      rfl⟩
  | constant_generator n =>
    exact ⟨"node: " ++ Nat.repr n ++ "\n", by
      simp [ConstraintRecord.text, ConstraintRecord.type, RecordType.label, String.append_assoc]
      rfl⟩
  | input_constraint n d c =>
    exact ⟨"node: " ++ Nat.repr n ++ " domain: " ++ Nat.repr d ++ " constraint: " ++ fmt c ++ "\n",
      by
        simp [ConstraintRecord.text, ConstraintRecord.type, RecordType.label,
          String.append_assoc]
        rfl⟩
  | output_constraint n d c =>
    exact ⟨"node: " ++ Nat.repr n ++ " domain: " ++ Nat.repr d ++ " constraint: " ++ fmt c ++ "\n",
      by
        simp [ConstraintRecord.text, ConstraintRecord.type, RecordType.label,
          String.append_assoc]
        rfl⟩
  | setup_constraint a b c =>
    exact ⟨"src_domain: " ++ Nat.repr a ++ " sink_domain: " ++ Nat.repr b ++ " constraint: " ++
      fmt c ++ "\n", by
        simp [ConstraintRecord.text, ConstraintRecord.type, RecordType.label,
          String.append_assoc]
        rfl⟩
  | hold_constraint a b c =>
    exact ⟨"src_domain: " ++ Nat.repr a ++ " sink_domain: " ++ Nat.repr b ++ " constraint: " ++
      fmt c ++ "\n", by
        simp [ConstraintRecord.text, ConstraintRecord.type, RecordType.label,
          String.append_assoc]
        rfl⟩

/-! ## Constraints writer: grouping, clock lines and order -/

/-- C11: after the `timing_constraints:` header the constraints writer emits
the lines of its records grouped in the fixed sequence `CLOCK`,
`CLOCK_SOURCE`, `CONSTANT_GENERATOR`, `INPUT_CONSTRAINT`, `OUTPUT_CONSTRAINT`,
`SETUP_CONSTRAINT`, `HOLD_CONSTRAINT`: of any two emitted records the earlier
one has a type that comes no later in this sequence than the type of the
later one, and every record line starts with the label of the record's
type. -/
theorem write_timing_constraints_grouped (fmt : Float32 → String) (os : OStream)
    (tc : TimingConstraints) :
    write_timing_constraints fmt os tc =
        os ++ "timing_constraints:\n" ++
          String.join ((spec_constraint_records tc).map (ConstraintRecord.text fmt)) ++ "\n" ∧
      (spec_constraint_records tc).Pairwise (fun a b => a.type.rank ≤ b.type.rank) ∧
      [RecordType.CLOCK, .CLOCK_SOURCE, .CONSTANT_GENERATOR, .INPUT_CONSTRAINT,
        .OUTPUT_CONSTRAINT, .SETUP_CONSTRAINT, .HOLD_CONSTRAINT].map RecordType.rank =
        [0, 1, 2, 3, 4, 5, 6] ∧
      ∀ r : ConstraintRecord,
        ∃ rest : String, r.text fmt = " type: " ++ r.type.label ++ " " ++ rest :=
  ⟨write_timing_constraints_eq fmt os tc, spec_constraint_records_grouped tc, rfl,
    record_text_label fmt⟩

/-- C12: the constraints writer emits exactly one `CLOCK` line per clock
domain, carrying the domain id and the name in double quotes, and a
`CLOCK_SOURCE` line for a domain exactly when its optional source node is
present, carrying that node id and the domain id; a domain without source
node adds nothing and the writer still returns. -/
theorem write_timing_constraints_clock_lines (fmt : Float32 → String) (os : OStream)
    (tc : TimingConstraints) :
    write_timing_constraints fmt os tc =
        os ++ "timing_constraints:\n" ++
          String.join ((spec_constraint_records tc).map (ConstraintRecord.text fmt)) ++ "\n" ∧
      records_of_type .CLOCK (spec_constraint_records tc) =
        tc.clock_domains.map (fun d => ConstraintRecord.clock d.id d.name) ∧
      records_of_type .CLOCK_SOURCE (spec_constraint_records tc) =
        tc.clock_domains.filterMap
          (fun d => d.source_node.map (fun n => ConstraintRecord.clock_source n d.id)) ∧
      (∀ (o : OStream) (d : ClockDomain), write_clock o d =
        o ++ " type: CLOCK domain: " ++ Nat.repr d.id ++ " name: \"" ++ d.name ++ "\"\n") ∧
      (∀ (o : OStream) (d : ClockDomain), write_clock_source o d =
        match d.source_node with
        | some n => o ++ " type: CLOCK_SOURCE node: " ++ Nat.repr n ++ " domain: " ++
            Nat.repr d.id ++ "\n"
        | none => o) ∧
      (∀ (d : DomainId) (name : String), (ConstraintRecord.clock d name).text fmt =
        " type: CLOCK domain: " ++ Nat.repr d ++ " name: \"" ++ name ++ "\"\n") ∧
      (∀ (n : NodeId) (d : DomainId), (ConstraintRecord.clock_source n d).text fmt =
        " type: CLOCK_SOURCE node: " ++ Nat.repr n ++ " domain: " ++ Nat.repr d ++ "\n") := by
  refine ⟨write_timing_constraints_eq fmt os tc, (records_of_type_spec tc).1,
    (records_of_type_spec tc).2.1, ?_, ?_, fun _ _ => rfl, fun _ _ => rfl⟩
  · intro o d
    simp [write_clock, OStream.str, OStream.size_t]
  · intro o d
    cases h : d.source_node <;> simp [write_clock_source, h, OStream.str, OStream.size_t]

/-- C16: within each group the emitted records follow the iteration order of
the source collection: the `INPUT_CONSTRAINT`, `OUTPUT_CONSTRAINT`,
`SETUP_CONSTRAINT` and `HOLD_CONSTRAINT` records are the image, in order, of
the non-NaN entries of their mapping, and the `CLOCK` and
`CONSTANT_GENERATOR` records are the image, in order, of the clock domains and
of the constant generators. -/
theorem write_timing_constraints_iteration_order (fmt : Float32 → String) (os : OStream)
    (tc : TimingConstraints) :
    write_timing_constraints fmt os tc =
        os ++ "timing_constraints:\n" ++
          String.join ((spec_constraint_records tc).map (ConstraintRecord.text fmt)) ++ "\n" ∧
      records_of_type .INPUT_CONSTRAINT (spec_constraint_records tc) =
        (tc.input_constraints.filter (fun kv => !isnan kv.2.constraint)).map
          (fun kv => ConstraintRecord.input_constraint kv.1 kv.2.domain kv.2.constraint) ∧
      records_of_type .OUTPUT_CONSTRAINT (spec_constraint_records tc) =
        (tc.output_constraints.filter (fun kv => !isnan kv.2.constraint)).map
          (fun kv => ConstraintRecord.output_constraint kv.1 kv.2.domain kv.2.constraint) ∧
      records_of_type .SETUP_CONSTRAINT (spec_constraint_records tc) =
        (tc.setup_constraints.filter (fun kv => !isnan kv.2)).map
          (fun kv => ConstraintRecord.setup_constraint kv.1.src_domain_id kv.1.sink_domain_id
            kv.2) ∧
      records_of_type .HOLD_CONSTRAINT (spec_constraint_records tc) =
        (tc.hold_constraints.filter (fun kv => !isnan kv.2)).map
          (fun kv => ConstraintRecord.hold_constraint kv.1.src_domain_id kv.1.sink_domain_id
            kv.2) ∧
      records_of_type .CLOCK (spec_constraint_records tc) =
        tc.clock_domains.map (fun d => ConstraintRecord.clock d.id d.name) ∧
      records_of_type .CONSTANT_GENERATOR (spec_constraint_records tc) =
        tc.constant_generators.map ConstraintRecord.constant_generator := by
  have h := records_of_type_spec tc
  exact ⟨write_timing_constraints_eq fmt os tc, h.2.2.2.1, h.2.2.2.2.1, h.2.2.2.2.2.1,
    h.2.2.2.2.2.2, h.1, h.2.2.1⟩

/-! ## Scenarios -/

/-- C13 fails as stated: for the scenario graph the writer prints a blank
after every edge id, so its `out_edges` line of node 0 is `  out_edges: 0 `
and its `in_edges` line of node 1 is `  in_edges: 0 `; the output is not the
scenario text, with or without a closing empty line. -/
theorem write_timing_graph_scenario_differs :
    write_timing_graph "" scenario_graph =
        some ("timing_graph:\n node: 0\n  type: SOURCE\n  in_edges: \n  out_edges: 0 \n" ++
          " node: 1\n  type: SINK\n  in_edges: 0 \n  out_edges: \n" ++
          " edge: 0\n  src_node: 0\n  sink_node: 1\n\n") ∧
      write_timing_graph "" scenario_graph ≠ some scenario_graph_text ∧
      write_timing_graph "" scenario_graph ≠ some (scenario_graph_text ++ "\n") := by
  have h : write_timing_graph "" scenario_graph =
      some ("timing_graph:\n node: 0\n  type: SOURCE\n  in_edges: \n  out_edges: 0 \n" ++
        " node: 1\n  type: SINK\n  in_edges: 0 \n  out_edges: \n" ++
        " edge: 0\n  src_node: 0\n  sink_node: 1\n\n") := by rfl
  have ha : ("timing_graph:\n node: 0\n  type: SOURCE\n  in_edges: \n  out_edges: 0 \n" ++
      " node: 1\n  type: SINK\n  in_edges: 0 \n  out_edges: \n" ++
      " edge: 0\n  src_node: 0\n  sink_node: 1\n\n").length = 157 := by rfl
  have hc : scenario_graph_text.length = 154 := by rfl
  have hc' : (scenario_graph_text ++ "\n").length = 155 := by rfl
  refine ⟨h, ?_, ?_⟩
  · rw [h]
    intro e
    have hl := congrArg String.length (Option.some.inj e)
    rw [ha, hc] at hl
    exact absurd hl (by decide)
  · rw [h]
    intro e
    have hl := congrArg String.length (Option.some.inj e)
    rw [ha, hc'] at hl
    exact absurd hl (by decide)

/-- C13 as amended: for the scenario graph the writer produces the lines of
the scenario with a blank after every edge id, followed by one empty line. -/
theorem write_timing_graph_scenario (os : OStream) :
    write_timing_graph os scenario_graph =
      some (os ++ ("timing_graph:\n" ++ " node: 0\n" ++ "  type: SOURCE\n" ++ "  in_edges: \n" ++
        "  out_edges: 0 \n" ++ " node: 1\n" ++ "  type: SINK\n" ++ "  in_edges: 0 \n" ++
        "  out_edges: \n" ++ " edge: 0\n" ++ "  src_node: 0\n" ++ "  sink_node: 1\n" ++ "\n")) := by
  rw [write_timing_graph_eq]
  have h : spec_timing_graph scenario_graph =
      "timing_graph:\n" ++ " node: 0\n" ++ "  type: SOURCE\n" ++ "  in_edges: \n" ++
        "  out_edges: 0 \n" ++ " node: 1\n" ++ "  type: SINK\n" ++ "  in_edges: 0 \n" ++
        "  out_edges: \n" ++ " edge: 0\n" ++ "  src_node: 0\n" ++ "  sink_node: 1\n" ++ "\n" := by
    rfl
  rw [h]

/-- C14: for the scenario constraints the writer produces, between the header
and the closing empty line, exactly two record lines, each indented by one
blank: `type: CLOCK domain: 0 name: "clk"` and then
`type: INPUT_CONSTRAINT node: 3 domain: 0 constraint: 2.5`; there is no
`CLOCK_SOURCE` record. The value 2.5 is rendered as `2.5`. -/
theorem write_timing_constraints_scenario (fmt : Float32 → String)
    (hfmt : fmt Float32.twoAndHalf = "2.5") (os : OStream) :
    write_timing_constraints fmt os scenario_constraints =
        os ++ "timing_constraints:\n" ++
          (" " ++ "type: CLOCK domain: 0 name: \"clk\"" ++ "\n") ++
          (" " ++ "type: INPUT_CONSTRAINT node: 3 domain: 0 constraint: 2.5" ++ "\n") ++ "\n" ∧
      spec_constraint_records scenario_constraints =
        [.clock 0 "clk", .input_constraint 3 0 Float32.twoAndHalf] ∧
      records_of_type .CLOCK_SOURCE (spec_constraint_records scenario_constraints) = [] := by
  have hr : spec_constraint_records scenario_constraints =
      [.clock 0 "clk", .input_constraint 3 0 Float32.twoAndHalf] := by decide
  refine ⟨?_, hr, by decide⟩
  rw [write_timing_constraints_eq, hr]
  have h1 : (ConstraintRecord.clock 0 "clk").text fmt =
      " " ++ "type: CLOCK domain: 0 name: \"clk\"" ++ "\n" := by rfl
  have h2 : (ConstraintRecord.input_constraint 3 0 Float32.twoAndHalf).text fmt =
      " " ++ "type: INPUT_CONSTRAINT node: 3 domain: 0 constraint: 2.5" ++ "\n" := by
    simp only [ConstraintRecord.text, hfmt]
    rfl
  simp only [List.map_cons, List.map_nil, join_cons, join_nil, h1, h2, String.append_empty,
    String.append_assoc]

/-- C14 at the example rendering of floats. -/
theorem write_timing_constraints_scenario_witness :
    sample_fmt Float32.twoAndHalf = "2.5" ∧
      write_timing_constraints sample_fmt "" scenario_constraints =
        "timing_constraints:\n type: CLOCK domain: 0 name: \"clk\"\n" ++
          " type: INPUT_CONSTRAINT node: 3 domain: 0 constraint: 2.5\n\n" :=
  ⟨by decide,
    (write_timing_constraints_scenario sample_fmt (by decide) "").1.trans (by rfl)⟩

/-! ## Graph writer: lookups, permutation and line count -/

theorem node_lookups_in_range (tg : TimingGraph) (i : Nat) (h : i < tg.nodes.length) :
    (tg.node_type i).isSome = true ∧ (tg.node_in_edges i).isSome = true ∧
      (tg.node_out_edges i).isSome = true := by
  simp [TimingGraph.node_type, TimingGraph.node_in_edges, TimingGraph.node_out_edges,
    List.getElem?_eq_getElem h]

theorem edge_lookups_in_range (tg : TimingGraph) (j : Nat) (h : j < tg.edges.length) :
    (tg.edge_src_node j).isSome = true ∧ (tg.edge_sink_node j).isSome = true := by
  simp [TimingGraph.edge_src_node, TimingGraph.edge_sink_node, List.getElem?_eq_getElem h]

/-- C15: on a structurally valid graph every lookup the graph writer performs
is in range: the node type and the two adjacency lookups at every node
position, the two end-point lookups at every edge position; no loop body
takes the error branch and the writer returns an output. -/
theorem write_timing_graph_no_failure (os : OStream) (tg : TimingGraph)
    (_hvalid : tg.valid = true) :
    (∀ i, i < tg.nodes.length →
        (tg.node_type i).isSome = true ∧ (tg.node_in_edges i).isSome = true ∧
          (tg.node_out_edges i).isSome = true) ∧
      (∀ j, j < tg.edges.length →
        (tg.edge_src_node j).isSome = true ∧ (tg.edge_sink_node j).isSome = true) ∧
      (∀ (o : OStream) (i : Nat), i < tg.nodes.length → (write_node tg o i).isSome = true) ∧
      (∀ (o : OStream) (j : Nat), j < tg.edges.length → (write_edge tg o j).isSome = true) ∧
      ∃ out : OStream, write_timing_graph os tg = some out := by
  refine ⟨node_lookups_in_range tg, edge_lookups_in_range tg, ?_, ?_,
    ⟨_, write_timing_graph_eq os tg⟩⟩
  · intro o i hi
    rw [write_node_eq tg o i tg.nodes[i] (List.getElem?_eq_getElem hi)]
    rfl
  · intro o j hj
    rw [write_edge_eq tg o j tg.edges[j] (List.getElem?_eq_getElem hj)]
    rfl

/-- C15 at the scenario graph. -/
theorem write_timing_graph_no_failure_witness :
    scenario_graph.valid = true ∧ (write_timing_graph "" scenario_graph).isSome = true :=
  ⟨by decide,
    match write_timing_graph_no_failure "" scenario_graph (by decide) with
    | ⟨_, _, _, _, out, h⟩ => by rw [h]; rfl⟩

theorem enumFrom_spec_node_block_perm (l : List Node) (s : Nat) :
    List.Forall₂
      (fun (b : NodeBlock) (n : Node) =>
        b.in_edges.Perm n.in_edges ∧ b.out_edges.Perm n.out_edges)
      ((l.enumFrom s).map spec_node_block) l := by
  induction l generalizing s with
  | nil => exact List.Forall₂.nil
  | cons a l ih =>
    exact List.Forall₂.cons ⟨sort_edges_perm _, sort_edges_perm _⟩ (ih (s + 1))

/-- C17: sorting neither drops nor invents edge ids: node by node, the ids
printed on the `in_edges` line are a permutation of the node's in-edge
collection and the ids printed on the `out_edges` line a permutation of its
out-edge collection. -/
theorem write_timing_graph_edge_lists_perm (os : OStream) (tg : TimingGraph) :
    write_timing_graph os tg =
        some (os ++ "timing_graph:\n" ++ String.join ((spec_node_blocks tg).map NodeBlock.text)
          ++ String.join ((spec_edge_blocks tg).map EdgeBlock.text) ++ "\n") ∧
      List.Forall₂
        (fun (b : NodeBlock) (n : Node) =>
          b.in_edges.Perm n.in_edges ∧ b.out_edges.Perm n.out_edges)
        (spec_node_blocks tg) tg.nodes := by
  refine ⟨?_, enumFrom_spec_node_block_perm tg.nodes 0⟩
  rw [write_timing_graph_eq]
  simp [spec_timing_graph, String.append_assoc]

theorem line_breaks_spec_id_list (ids : List Nat) : line_breaks (spec_id_list ids) = 0 := by
  unfold spec_id_list
  rw [line_breaks_join]
  apply List.sum_eq_zero
  intro x hx
  simp only [List.mem_map] at hx
  obtain ⟨y, ⟨i, _, rfl⟩, rfl⟩ := hx
  have hb : line_breaks " " = 0 := by decide
  simp [line_breaks_append, line_breaks_repr, hb]

theorem line_breaks_node_block (b : NodeBlock) : line_breaks b.text = 4 := by
  have h1 : line_breaks " node: " = 0 := by decide
  have h2 : line_breaks "\n" = 1 := by decide
  have h3 : line_breaks "  type: " = 0 := by decide
  have h4 : line_breaks "  in_edges: " = 0 := by decide
  have h5 : line_breaks "  out_edges: " = 0 := by decide
  simp [NodeBlock.text, line_breaks_append, line_breaks_repr, line_breaks_spec_id_list,
    line_breaks_eq_zero b.type.single_line, h1, h2, h3, h4, h5]

theorem line_breaks_edge_block (b : EdgeBlock) : line_breaks b.text = 3 := by
  have h1 : line_breaks " edge: " = 0 := by decide
  have h2 : line_breaks "\n" = 1 := by decide
  have h3 : line_breaks "  src_node: " = 0 := by decide
  have h4 : line_breaks "  sink_node: " = 0 := by decide
  simp [EdgeBlock.text, line_breaks_append, line_breaks_repr, h1, h2, h3, h4]

theorem line_breaks_join_const {α : Type} (txt : α → String) (k : Nat)
    (h : ∀ x, line_breaks (txt x) = k) (l : List α) :
    line_breaks (String.join (l.map txt)) = k * l.length := by
  induction l with
  | nil => rfl
  | cons a l ih =>
    rw [List.map_cons, join_cons, line_breaks_append, ih, h, List.length_cons, Nat.mul_succ,
      Nat.add_comm]

theorem ends_line_append (a b : String) (h : ends_line b = true) :
    ends_line (a ++ b) = true := by
  unfold ends_line at h ⊢
  rw [String.data_append, List.getLast?_append]
  simp only [beq_iff_eq] at h ⊢
  rw [h]
  rfl

theorem ends_line_append_join {α : Type} (txt : α → String)
    (h : ∀ x, ends_line (txt x) = true) (l : List α) (a : String) (ha : ends_line a = true) :
    ends_line (a ++ String.join (l.map txt)) = true := by
  induction l generalizing a with
  | nil => simpa [join_nil] using ha
  | cons x l ih =>
    rw [List.map_cons, join_cons, ← String.append_assoc]
    exact ih (a ++ txt x) (ends_line_append a (txt x) (h x))

theorem ends_line_node_block (b : NodeBlock) : ends_line b.text = true :=
  ends_line_append _ "\n" (by decide)

theorem ends_line_edge_block (b : EdgeBlock) : ends_line b.text = true :=
  ends_line_append _ "\n" (by decide)

/-- C18: for a graph with `n` nodes and `m` edges the graph writer produces
`1 + 4 * n + 3 * m` content lines, each ended by a line break (the header,
four lines per node, three per edge), followed by one empty line, however
many edge ids the adjacency of a node holds. -/
theorem write_timing_graph_line_count (os : OStream) (tg : TimingGraph) :
    write_timing_graph os tg =
        some (os ++ ("timing_graph:\n" ++
          String.join ((spec_node_blocks tg).map NodeBlock.text) ++
          String.join ((spec_edge_blocks tg).map EdgeBlock.text)) ++ "\n") ∧
      line_breaks ("timing_graph:\n" ++
          String.join ((spec_node_blocks tg).map NodeBlock.text) ++
          String.join ((spec_edge_blocks tg).map EdgeBlock.text)) =
        1 + 4 * tg.nodes.length + 3 * tg.edges.length ∧
      ends_line ("timing_graph:\n" ++
          String.join ((spec_node_blocks tg).map NodeBlock.text) ++
          String.join ((spec_edge_blocks tg).map EdgeBlock.text)) = true := by
  refine ⟨?_, ?_, ?_⟩
  · rw [write_timing_graph_eq]
    simp [spec_timing_graph, String.append_assoc]
  · have h0 : line_breaks "timing_graph:\n" = 1 := by decide
    rw [line_breaks_append, line_breaks_append, h0,
      line_breaks_join_const _ 4 line_breaks_node_block,
      line_breaks_join_const _ 3 line_breaks_edge_block]
    simp [spec_node_blocks, spec_edge_blocks]
  · exact ends_line_append_join _ ends_line_edge_block _ _
      (ends_line_append_join _ ends_line_node_block _ _ (by decide))

/-! ## Result writer: dependence on the graph -/

/-- C19: the result writer uses the graph only through its number of nodes:
for one analyzer, two graphs with the same number of nodes get the same
output. -/
theorem write_analysis_result_node_count_only (fmt : Float32 → String) (os : OStream)
    (tg₁ tg₂ : TimingGraph) (analyzer : TimingAnalyzer)
    (h : tg₁.nodes.length = tg₂.nodes.length) :
    write_analysis_result fmt os tg₁ analyzer = write_analysis_result fmt os tg₂ analyzer := by
  simp only [write_analysis_result, write_setup_result, write_hold_result, h]

/-- C19 at the scenario graph and a graph of two isolated nodes. -/
theorem write_analysis_result_node_count_only_witness :
    scenario_graph.nodes.length = g_two_isolated.nodes.length ∧
      scenario_graph.edges ≠ g_two_isolated.edges ∧
      write_analysis_result sample_fmt "" scenario_graph setup_only_sample =
        write_analysis_result sample_fmt "" g_two_isolated setup_only_sample ∧
      write_analysis_result sample_fmt "" g_two_isolated setup_only_sample =
        "analysis_result:\n type: SETUP_DATA node: 0 domain: 0 arr: 5 req: nan\n" ++
          " type: SETUP_DATA node: 1 domain: 1 arr: 5 req: nan\n\n" :=
  ⟨rfl, by decide,
    write_analysis_result_node_count_only sample_fmt "" scenario_graph g_two_isolated
      setup_only_sample rfl,
    by rfl⟩

/-! ## Decoding numbers and id lists -/

/-- Two texts that agree up to and including the first separator `c`: the
parts before the separator agree and so do the parts after it. -/
theorem split_first (c : Char) (a b r₁ r₂ : List Char) (ha : c ∉ a) (hb : c ∉ b)
    (h : a ++ c :: r₁ = b ++ c :: r₂) : a = b ∧ r₁ = r₂ := by
  induction a generalizing b with
  | nil =>
    cases b with
    | nil => exact ⟨rfl, by simpa using h⟩
    | cons y b =>
      simp only [List.nil_append, List.cons_append, List.cons.injEq] at h
      exact absurd (List.mem_cons.mpr (Or.inl h.1)) hb
  | cons x a ih =>
    cases b with
    | nil =>
      simp only [List.nil_append, List.cons_append, List.cons.injEq] at h
      exact absurd (List.mem_cons.mpr (Or.inl h.1.symm)) ha
    | cons y b =>
      simp only [List.cons_append, List.cons.injEq] at h
      have ha' : c ∉ a := fun hm => ha (List.mem_cons_of_mem _ hm)
      have hb' : c ∉ b := fun hm => hb (List.mem_cons_of_mem _ hm)
      obtain ⟨e₁, e₂⟩ := ih b ha' hb' h.2
      exact ⟨by rw [h.1, e₁], e₂⟩

theorem digitChar_value : ∀ n, n < 10 → (Nat.digitChar n).toNat - 48 = n := by
  decide

theorem digitChar_ne_blank : ∀ n, n < 10 → Nat.digitChar n ≠ ' ' := by
  decide

theorem digits_value_concat (l : List Char) (c : Char) :
    digits_value (l ++ [c]) = 10 * digits_value l + (c.toNat - 48) := by
  simp [digits_value, List.foldl_append]

/-- With enough fuel the digit loop puts, in front of the digits it was
given, digits that stand for the number. -/
theorem toDigitsCore_decode (fuel n : Nat) (ds : List Char) (h : n < fuel) :
    ∃ pre : List Char, Nat.toDigitsCore 10 fuel n ds = pre ++ ds ∧ digits_value pre = n := by
  induction fuel generalizing n ds with
  | zero => exact absurd h (Nat.not_lt_zero n)
  | succ fuel ih =>
    simp only [Nat.toDigitsCore]
    split
    · next h0 =>
      refine ⟨[Nat.digitChar (n % 10)], rfl, ?_⟩
      have hv := digits_value_concat [] (Nat.digitChar (n % 10))
      simp only [List.nil_append] at hv
      rw [hv, digitChar_value _ (Nat.mod_lt n (by decide))]
      have : digits_value [] = 0 := rfl
      omega
    · next h0 =>
      have hlt : n / 10 < fuel := by omega
      obtain ⟨pre, hpre, hval⟩ := ih (n / 10) (Nat.digitChar (n % 10) :: ds) hlt
      refine ⟨pre ++ [Nat.digitChar (n % 10)], ?_, ?_⟩
      · rw [hpre]
        simp
      · rw [digits_value_concat, hval, digitChar_value _ (Nat.mod_lt n (by decide))]
        omega

theorem digits_value_repr (n : Nat) : digits_value (Nat.repr n).data = n := by
  obtain ⟨pre, hpre, hval⟩ := toDigitsCore_decode (n + 1) n [] (Nat.lt_succ_self n)
  simp only [Nat.repr, List.asString, Nat.toDigits, hpre, List.append_nil]
  exact hval

/-- The decimal rendering of numbers is injective. -/
theorem repr_injective {n m : Nat} (h : Nat.repr n = Nat.repr m) : n = m := by
  rw [← digits_value_repr n, ← digits_value_repr m, h]

theorem toDigitsCore_no_blank (fuel n : Nat) (ds : List Char) (h : ' ' ∉ ds) :
    ' ' ∉ Nat.toDigitsCore 10 fuel n ds := by
  induction fuel generalizing n ds with
  | zero => simpa [Nat.toDigitsCore] using h
  | succ fuel ih =>
    have hd : ' ' ∉ Nat.digitChar (n % 10) :: ds := by
      simp only [List.mem_cons, not_or]
      exact ⟨fun e => digitChar_ne_blank _ (Nat.mod_lt n (by decide)) e.symm, h⟩
    simp only [Nat.toDigitsCore]
    split
    · exact hd
    · exact ih _ _ hd

theorem repr_no_blank (n : Nat) : ' ' ∉ (Nat.repr n).data := by
  simp only [Nat.repr, List.asString, Nat.toDigits]
  exact toDigitsCore_no_blank _ _ _ (by simp)

theorem spec_id_list_cons (i : Nat) (l : List Nat) :
    (spec_id_list (i :: l)).data = (Nat.repr i).data ++ ' ' :: (spec_id_list l).data := by
  simp [spec_id_list, join_cons]

/-- The printed id list determines the ids. -/
theorem spec_id_list_injective {l₁ l₂ : List Nat} (h : spec_id_list l₁ = spec_id_list l₂) :
    l₁ = l₂ := by
  have hd := congrArg String.data h
  clear h
  induction l₁ generalizing l₂ with
  | nil =>
    cases l₂ with
    | nil => rfl
    | cons j l₂ =>
      rw [spec_id_list_cons] at hd
      have hl := congrArg List.length hd
      have h0 : (spec_id_list []).data.length = 0 := rfl
      rw [h0, List.length_append, List.length_cons] at hl
      omega
  | cons i l₁ ih =>
    cases l₂ with
    | nil =>
      rw [spec_id_list_cons] at hd
      have hl := congrArg List.length hd
      have h0 : (spec_id_list []).data.length = 0 := rfl
      rw [h0, List.length_append, List.length_cons] at hl
      omega
    | cons j l₂ =>
      rw [spec_id_list_cons, spec_id_list_cons] at hd
      obtain ⟨e₁, e₂⟩ := split_first ' ' _ _ _ _ (repr_no_blank i) (repr_no_blank j) hd
      have hij : i = j := repr_injective (String.ext e₁)
      rw [hij, ih e₂]

/-! ## Decoding the graph section -/

theorem str_append_cancel {a b c : String} (h : a ++ b = a ++ c) : b = c := by
  have hd := congrArg String.data h
  simp only [String.data_append] at hd
  exact String.ext (List.append_cancel_left hd)

theorem str_append_cancel_right {a b c : String} (h : a ++ c = b ++ c) : a = b := by
  have hd := congrArg String.data h
  simp only [String.data_append] at hd
  exact String.ext (List.append_cancel_right hd)

theorem unlines_nil : unlines [] = "" := rfl

theorem unlines_cons (l : String) (ls : List String) :
    unlines (l :: ls) = l ++ "\n" ++ unlines ls := by
  simp [unlines, join_cons]

theorem unlines_append (a b : List String) : unlines (a ++ b) = unlines a ++ unlines b := by
  simp [unlines, join_append]

theorem unlines_cons_data (l : String) (ls : List String) :
    (unlines (l :: ls)).data = l.data ++ '\n' :: (unlines ls).data := by
  rw [unlines_cons]
  simp

/-- A text made of lines without inner line breaks determines its lines. -/
theorem unlines_injective (l₁ l₂ : List String) (h₁ : ∀ l ∈ l₁, '\n' ∉ l.data)
    (h₂ : ∀ l ∈ l₂, '\n' ∉ l.data) (h : unlines l₁ = unlines l₂) : l₁ = l₂ := by
  have hd := congrArg String.data h
  clear h
  induction l₁ generalizing l₂ with
  | nil =>
    cases l₂ with
    | nil => rfl
    | cons b l₂ =>
      rw [unlines_cons_data] at hd
      have hl := congrArg List.length hd
      have h0 : (unlines []).data.length = 0 := rfl
      rw [h0, List.length_append, List.length_cons] at hl
      omega
  | cons a l₁ ih =>
    cases l₂ with
    | nil =>
      rw [unlines_cons_data] at hd
      have hl := congrArg List.length hd
      have h0 : (unlines []).data.length = 0 := rfl
      rw [h0, List.length_append, List.length_cons] at hl
      omega
    | cons b l₂ =>
      rw [unlines_cons_data, unlines_cons_data] at hd
      obtain ⟨e₁, e₂⟩ := split_first '\n' _ _ _ _ (h₁ a (List.mem_cons_self _ _))
        (h₂ b (List.mem_cons_self _ _)) hd
      rw [String.ext e₁, ih l₂ (fun l hl => h₁ l (List.mem_cons_of_mem _ hl))
        (fun l hl => h₂ l (List.mem_cons_of_mem _ hl)) e₂]

theorem node_block_text_lines (b : NodeBlock) : b.text = unlines (node_lines b) := by
  simp only [NodeBlock.text, node_lines, unlines_cons, unlines_nil, String.append_assoc,
    String.append_empty]

theorem edge_block_text_lines (b : EdgeBlock) : b.text = unlines (edge_lines b) := by
  simp only [EdgeBlock.text, edge_lines, unlines_cons, unlines_nil, String.append_assoc,
    String.append_empty]

theorem join_node_blocks_lines (bs : List NodeBlock) :
    String.join (bs.map NodeBlock.text) = unlines (bs.flatMap node_lines) := by
  induction bs with
  | nil => rfl
  | cons b bs ih =>
    rw [List.map_cons, join_cons, ih, List.flatMap_cons, unlines_append, node_block_text_lines]

theorem join_edge_blocks_lines (bs : List EdgeBlock) :
    String.join (bs.map EdgeBlock.text) = unlines (bs.flatMap edge_lines) := by
  induction bs with
  | nil => rfl
  | cons b bs ih =>
    rw [List.map_cons, join_cons, ih, List.flatMap_cons, unlines_append, edge_block_text_lines]

/-- The graph section is its content lines followed by the empty line. -/
theorem spec_timing_graph_lines (tg : TimingGraph) :
    spec_timing_graph tg = unlines (graph_lines tg) ++ "\n" := by
  simp [spec_timing_graph, graph_lines, unlines_cons, unlines_append, join_node_blocks_lines,
    join_edge_blocks_lines, String.append_assoc]

theorem no_newline_append {a b : String} (ha : '\n' ∉ a.data) (hb : '\n' ∉ b.data) :
    '\n' ∉ (a ++ b).data := by
  simp only [String.data_append, List.mem_append, not_or]
  exact ⟨ha, hb⟩

theorem spec_id_list_no_newline (ids : List Nat) : '\n' ∉ (spec_id_list ids).data :=
  List.count_eq_zero.mp (line_breaks_spec_id_list ids)

theorem node_lines_no_newline (b : NodeBlock) : ∀ l ∈ node_lines b, '\n' ∉ l.data := by
  intro l hl
  simp only [node_lines, List.mem_cons, List.mem_singleton, List.not_mem_nil, or_false] at hl
  rcases hl with rfl | rfl | rfl | rfl
  · exact no_newline_append (by decide) (repr_no_newline _)
  · exact no_newline_append (by decide) b.type.single_line
  · exact no_newline_append (by decide) (spec_id_list_no_newline _)
  · exact no_newline_append (by decide) (spec_id_list_no_newline _)

theorem edge_lines_no_newline (b : EdgeBlock) : ∀ l ∈ edge_lines b, '\n' ∉ l.data := by
  intro l hl
  simp only [edge_lines, List.mem_cons, List.mem_singleton, List.not_mem_nil, or_false] at hl
  rcases hl with rfl | rfl | rfl
  · exact no_newline_append (by decide) (repr_no_newline _)
  · exact no_newline_append (by decide) (repr_no_newline _)
  · exact no_newline_append (by decide) (repr_no_newline _)

theorem graph_lines_no_newline (tg : TimingGraph) : ∀ l ∈ graph_lines tg, '\n' ∉ l.data := by
  intro l hl
  simp only [graph_lines, List.mem_cons, List.mem_append, List.mem_flatMap] at hl
  rcases hl with rfl | ⟨b, _, hb⟩ | ⟨b, _, hb⟩
  · decide
  · exact node_lines_no_newline b l hb
  · exact edge_lines_no_newline b l hb

/-- Equal graph sections have equal content lines. -/
theorem graph_lines_of_text_eq (tg₁ tg₂ : TimingGraph)
    (h : spec_timing_graph tg₁ = spec_timing_graph tg₂) : graph_lines tg₁ = graph_lines tg₂ := by
  rw [spec_timing_graph_lines, spec_timing_graph_lines] at h
  exact unlines_injective _ _ (graph_lines_no_newline tg₁) (graph_lines_no_newline tg₂)
    (str_append_cancel_right h)

theorem edge_line_ne_node_line (x y : String) : " edge: " ++ x ≠ " node: " ++ y := by
  intro h
  have hd := congrArg String.data h
  have h₁ : (" edge: " ++ x).data = ' ' :: 'e' :: 'd' :: 'g' :: 'e' :: ':' :: ' ' :: x.data := rfl
  have h₂ : (" node: " ++ y).data = ' ' :: 'n' :: 'o' :: 'd' :: 'e' :: ':' :: ' ' :: y.data := rfl
  rw [h₁, h₂] at hd
  simp at hd

theorem NodeType.eq_of_label {a b : NodeType} (h : a.label = b.label) : a = b := by
  cases a
  cases b
  cases h
  rfl

/-- The lines of a node block determine the block. -/
theorem node_block_of_lines {b₁ b₂ : NodeBlock} (h : node_lines b₁ = node_lines b₂) :
    b₁ = b₂ := by
  simp only [node_lines, List.cons.injEq, and_true] at h
  obtain ⟨h₁, h₂, h₃, h₄⟩ := h
  cases b₁
  cases b₂
  simp only at h₁ h₂ h₃ h₄
  rw [repr_injective (str_append_cancel h₁), NodeType.eq_of_label (str_append_cancel h₂),
    spec_id_list_injective (str_append_cancel h₃), spec_id_list_injective (str_append_cancel h₄)]

/-- The lines of an edge block determine the block. -/
theorem edge_block_of_lines {b₁ b₂ : EdgeBlock} (h : edge_lines b₁ = edge_lines b₂) :
    b₁ = b₂ := by
  simp only [edge_lines, List.cons.injEq, and_true] at h
  obtain ⟨h₁, h₂, h₃⟩ := h
  cases b₁
  cases b₂
  simp only at h₁ h₂ h₃
  rw [repr_injective (str_append_cancel h₁), repr_injective (str_append_cancel h₂),
    repr_injective (str_append_cancel h₃)]

theorem node_lines_append_inj {b₁ b₂ : NodeBlock} {r₁ r₂ : List String}
    (h : node_lines b₁ ++ r₁ = node_lines b₂ ++ r₂) : node_lines b₁ = node_lines b₂ ∧ r₁ = r₂ := by
  simp only [node_lines, List.cons_append, List.nil_append, List.cons.injEq] at h
  obtain ⟨h₁, h₂, h₃, h₄, h₅⟩ := h
  exact ⟨by simp only [node_lines, h₁, h₂, h₃, h₄], h₅⟩

theorem edge_lines_append_inj {b₁ b₂ : EdgeBlock} {r₁ r₂ : List String}
    (h : edge_lines b₁ ++ r₁ = edge_lines b₂ ++ r₂) : edge_lines b₁ = edge_lines b₂ ∧ r₁ = r₂ := by
  simp only [edge_lines, List.cons_append, List.nil_append, List.cons.injEq] at h
  obtain ⟨h₁, h₂, h₃, h₄⟩ := h
  exact ⟨by simp only [edge_lines, h₁, h₂, h₃], h₄⟩

/-- The lines of a sequence of edge blocks determine the sequence. -/
theorem edge_blocks_of_lines (e₁ e₂ : List EdgeBlock)
    (h : e₁.flatMap edge_lines = e₂.flatMap edge_lines) : e₁ = e₂ := by
  induction e₁ generalizing e₂ with
  | nil =>
    cases e₂ with
    | nil => rfl
    | cons b e₂ => simp [edge_lines] at h
  | cons a e₁ ih =>
    cases e₂ with
    | nil => simp [edge_lines] at h
    | cons b e₂ =>
      rw [List.flatMap_cons, List.flatMap_cons] at h
      obtain ⟨hab, hr⟩ := edge_lines_append_inj h
      rw [edge_block_of_lines hab, ih e₂ hr]

theorem edge_lines_ne_node_lines (e : EdgeBlock) (b : NodeBlock) (r₁ r₂ : List String) :
    edge_lines e ++ r₁ ≠ node_lines b ++ r₂ := by
  intro h
  simp only [edge_lines, node_lines, List.cons_append, List.cons.injEq] at h
  exact edge_line_ne_node_line _ _ h.1

/-- The lines of the node blocks followed by the lines of the edge blocks
determine both sequences of blocks. -/
theorem blocks_of_lines (b₁ b₂ : List NodeBlock) (e₁ e₂ : List EdgeBlock)
    (h : b₁.flatMap node_lines ++ e₁.flatMap edge_lines =
      b₂.flatMap node_lines ++ e₂.flatMap edge_lines) : b₁ = b₂ ∧ e₁ = e₂ := by
  induction b₁ generalizing b₂ with
  | nil =>
    cases b₂ with
    | nil => exact ⟨rfl, edge_blocks_of_lines e₁ e₂ (by simpa using h)⟩
    | cons b b₂ =>
      exfalso
      rw [List.flatMap_nil, List.nil_append, List.flatMap_cons, List.append_assoc] at h
      cases e₁ with
      | nil => simp [node_lines] at h
      | cons e e₁ =>
        rw [List.flatMap_cons] at h
        exact edge_lines_ne_node_lines e b _ _ h
  | cons a b₁ ih =>
    cases b₂ with
    | nil =>
      exfalso
      rw [List.flatMap_nil, List.nil_append, List.flatMap_cons, List.append_assoc] at h
      cases e₂ with
      | nil => simp [node_lines] at h
      | cons e e₂ =>
        rw [List.flatMap_cons] at h
        exact edge_lines_ne_node_lines e a _ _ h.symm
    | cons b b₂ =>
      rw [List.flatMap_cons, List.flatMap_cons, List.append_assoc, List.append_assoc] at h
      obtain ⟨hab, hr⟩ := node_lines_append_inj h
      obtain ⟨hb, he⟩ := ih b₂ hr
      exact ⟨by rw [node_block_of_lines hab, hb], he⟩

theorem spec_node_blocks_types (tg : TimingGraph) :
    (spec_node_blocks tg).map NodeBlock.type = tg.nodes.map Node.type := by
  simpa [spec_node_blocks, spec_node_block, List.map_map, Function.comp_def] using
    enum_map_snd_comp Node.type tg.nodes

theorem spec_node_blocks_in_edges (tg : TimingGraph) :
    (spec_node_blocks tg).map NodeBlock.in_edges =
      tg.nodes.map (fun n => sort_edges n.in_edges) := by
  simpa [spec_node_blocks, spec_node_block, List.map_map, Function.comp_def] using
    enum_map_snd_comp (fun n : Node => sort_edges n.in_edges) tg.nodes

theorem spec_node_blocks_out_edges (tg : TimingGraph) :
    (spec_node_blocks tg).map NodeBlock.out_edges =
      tg.nodes.map (fun n => sort_edges n.out_edges) := by
  simpa [spec_node_blocks, spec_node_block, List.map_map, Function.comp_def] using
    enum_map_snd_comp (fun n : Node => sort_edges n.out_edges) tg.nodes

theorem spec_edge_blocks_edges (tg : TimingGraph) :
    (spec_edge_blocks tg).map (fun b => Edge.mk b.src_node b.sink_node) = tg.edges := by
  simp [spec_edge_blocks, spec_edge_block, List.map_map, Function.comp_def]

theorem perm_of_sort_edges_eq {l₁ l₂ : List EdgeId} (h : sort_edges l₁ = sort_edges l₂) :
    l₁.Perm l₂ :=
  ((sort_edges_perm l₁).symm.trans (h ▸ List.Perm.refl _)).trans (sort_edges_perm l₂)

/-- Nodes with the same sorted adjacency, position by position, have the same
adjacency up to permutation. -/
theorem forall₂_perm_of_sorted_eq (l₁ l₂ : List Node)
    (hi : l₁.map (fun n => sort_edges n.in_edges) = l₂.map (fun n => sort_edges n.in_edges))
    (ho : l₁.map (fun n => sort_edges n.out_edges) = l₂.map (fun n => sort_edges n.out_edges)) :
    List.Forall₂
      (fun a b : Node => a.in_edges.Perm b.in_edges ∧ a.out_edges.Perm b.out_edges) l₁ l₂ := by
  induction l₁ generalizing l₂ with
  | nil =>
    cases l₂ with
    | nil => exact List.Forall₂.nil
    | cons b l₂ => simp at hi
  | cons a l₁ ih =>
    cases l₂ with
    | nil => simp at hi
    | cons b l₂ =>
      simp only [List.map_cons, List.cons.injEq] at hi ho
      exact List.Forall₂.cons ⟨perm_of_sort_edges_eq hi.1, perm_of_sort_edges_eq ho.1⟩
        (ih l₂ hi.2 ho.2)

/-! ## Graph writer: the dump loses no topology -/

/-- C20: if the graph writer produces the same output for two structurally
valid graphs, the two graphs have the same number of nodes and of edges, the
same type label at every node, the same source and sink node at every edge,
and at every node the same in-edge ids and the same out-edge ids up to
permutation. -/
theorem write_timing_graph_injective (os : OStream) (tg₁ tg₂ : TimingGraph)
    (_hv₁ : tg₁.valid = true) (_hv₂ : tg₂.valid = true)
    (h : write_timing_graph os tg₁ = write_timing_graph os tg₂) :
    tg₁.nodes.length = tg₂.nodes.length ∧ tg₁.edges.length = tg₂.edges.length ∧
      tg₁.nodes.map (fun n => n.type.label) = tg₂.nodes.map (fun n => n.type.label) ∧
      tg₁.edges = tg₂.edges ∧
      List.Forall₂
        (fun a b : Node => a.in_edges.Perm b.in_edges ∧ a.out_edges.Perm b.out_edges)
        tg₁.nodes tg₂.nodes := by
  rw [write_timing_graph_eq, write_timing_graph_eq] at h
  have ht : spec_timing_graph tg₁ = spec_timing_graph tg₂ :=
    str_append_cancel (Option.some.inj h)
  have hl := graph_lines_of_text_eq tg₁ tg₂ ht
  simp only [graph_lines, List.cons.injEq, true_and] at hl
  obtain ⟨hb, he⟩ := blocks_of_lines _ _ _ _ hl
  have hedges : tg₁.edges = tg₂.edges := by
    rw [← spec_edge_blocks_edges tg₁, ← spec_edge_blocks_edges tg₂, he]
  have htypes : tg₁.nodes.map Node.type = tg₂.nodes.map Node.type := by
    rw [← spec_node_blocks_types tg₁, ← spec_node_blocks_types tg₂, hb]
  have hin := spec_node_blocks_in_edges tg₁
  have hout := spec_node_blocks_out_edges tg₁
  rw [hb, spec_node_blocks_in_edges] at hin
  rw [hb, spec_node_blocks_out_edges] at hout
  refine ⟨?_, by rw [hedges], ?_, hedges, forall₂_perm_of_sorted_eq _ _ hin.symm hout.symm⟩
  · have := congrArg List.length htypes
    simpa using this
  · have := congrArg (List.map NodeType.label) htypes
    simpa [List.map_map, Function.comp_def] using this

/-- C20 at two valid graphs that differ in the storage order of an adjacency
and have the same output. -/
theorem write_timing_graph_injective_witness :
    g_stored_desc.valid = true ∧ g_stored_asc.valid = true ∧
      write_timing_graph "" g_stored_desc = write_timing_graph "" g_stored_asc ∧
      g_stored_desc.edges = g_stored_asc.edges ∧
      List.Forall₂
        (fun a b : Node => a.in_edges.Perm b.in_edges ∧ a.out_edges.Perm b.out_edges)
        g_stored_desc.nodes g_stored_asc.nodes :=
  have h : write_timing_graph "" g_stored_desc = write_timing_graph "" g_stored_asc := by rfl
  have r := write_timing_graph_injective "" g_stored_desc g_stored_asc (by decide) (by decide) h
  ⟨by decide, by decide, h, r.2.2.2.1, r.2.2.2.2⟩

end Tatum
